import Mathlib

/-!
Verification of the Parquet column-chunk writer core
(`src/cpp/src/parquet/column_writer.cc`) against its specification.

The C++ writer is shallowly embedded as pure Lean functions over an explicit
`WriterState`.  Machine integers (`int16_t` levels, `int32_t`/`int64_t`
counters) are modelled as `Nat`: the source only ever increments these
counters and compares them, and the level values are non-negative and
bounded by the max level, so no wrap-around is observable in the modelled
operations.  Throwing (`ParquetException`) is modelled with
`Except String`, the raised message being the source's message verbatim;
a throw returns the member state exactly as it was at the throw site, since
the C++ exception does not roll back member mutations that already happened.

External collaborators that the file under `src/` only calls
(arrow's `RleEncoder`, the compressor, the thrift page serializer inside
`PageWriter`) are abstracted into an `Env` record of functions, so theorems
about page framing and ordering hold for every behaviour of those
collaborators.  Components of this repository that are not under `src/`
(the encoders from `parquet/encoding-internal.h` and the properties from
`parquet/properties.h`) are modelled from the spec; their definitions carry
a `Modelled from the spec:` note.

Statistics (`parquet/statistics.h`, external to `src/`) are not observable
by any property proved here (the claims concern layout, ordering, row and
level counting, and error behaviour), so the statistics calls of the source
are not carried in the state.
-/

set_option autoImplicit false

namespace PQ

/-- The eight Parquet physical types (`parquet/types.h`, as enumerated by
`ColumnWriter::Make`). -/
inductive PhysicalType
  | BOOLEAN
  | INT32
  | INT64
  | INT96
  | FLOAT
  | DOUBLE
  | BYTE_ARRAY
  | FIXED_LEN_BYTE_ARRAY
deriving DecidableEq, Repr

/-- Parquet value/level encodings relevant to the writer. -/
inductive Encoding
  | PLAIN
  | PLAIN_DICTIONARY
  | RLE
  | BIT_PACKED
  | DELTA_BINARY_PACKED
  | DELTA_LENGTH_BYTE_ARRAY
  | DELTA_BYTE_ARRAY
  | RLE_DICTIONARY
deriving DecidableEq, Repr

/-- Modelled from the spec: the byte width used by the plain encoder for a
fixed-width physical type (§4.2 "Plain variant").  Variable-width types are
assigned a nominal width; no claim inspects the value payload's contents. -/
def byteWidth : PhysicalType → Nat
  | .BOOLEAN => 1
  | .INT32 => 4
  | .INT64 => 8
  | .INT96 => 12
  | .FLOAT => 4
  | .DOUBLE => 8
  | .BYTE_ARRAY => 4
  | .FIXED_LEN_BYTE_ARRAY => 4

/-- Little-endian serialization of one value into `w` bytes. -/
def leBytes (w : Nat) (v : Nat) : List Nat :=
  (List.range w).map fun i => v / 256 ^ i % 256

/-- Modelled from the spec: plain encoding of a dense value run
(§4.2, "writes little-endian raw values"). -/
def plainBytes (w : Nat) (vs : List Nat) : List Nat :=
  vs.flatMap (leBytes w)

/-- Modelled from the spec: the dictionary variant's index payload, "an
RLE/bit-packed encoding of the indices, prefixed with a single byte giving
the bit width used" (§4.2).  The index bitstream itself is opaque to every
claim; it is modelled one byte per index. -/
def dictIndexBytes (ix : List Nat) : List Nat :=
  (if ix.isEmpty then 0 else Nat.log2 (ix.foldr max 0) + 1) :: ix.map (· % 256)

/-- Modelled from the spec: the value-encoder state (`PlainEncoder` /
`DictEncoder` from `parquet/encoding-internal.h`, not under `src/`).  The
dictionary variant keeps an insertion-ordered deduplicated dictionary and
the stream of indices buffered since the last flush (§4.2). -/
inductive Enc
  | plain (buf : List Nat)
  | dict (entries : List Nat) (indices : List Nat)
deriving DecidableEq, Repr

/-- Insert one value into the dictionary encoder. -/
def dictPut1 : List Nat × List Nat → Nat → List Nat × List Nat
  | (es, ix), v =>
    if v ∈ es then (es, ix ++ [es.indexOf v]) else (es ++ [v], ix ++ [es.length])

/-- Modelled from the spec: `put(values[])` appends dense values (§4.2). -/
def Enc.put : Enc → List Nat → Enc
  | .plain buf, vs => .plain (buf ++ vs)
  | .dict es ix, vs =>
    let p := vs.foldl dictPut1 (es, ix)
    .dict p.1 p.2

/-- Modelled from the spec: `estimated_data_encoded_size()`, "an
upper-or-tight estimate of what the current state would serialize to; used
purely as a page-cut trigger; it need not equal the final size" (§4.2). -/
def Enc.estimatedDataEncodedSize (w : Nat) : Enc → Nat
  | .plain buf => w * buf.length
  | .dict _ ix => if ix.isEmpty then 0 else 1 + ix.length

/-- Modelled from the spec: the value payload `flush_values()` would
materialize from the current state (§4.2). -/
def Enc.flushBytes (w : Nat) : Enc → List Nat
  | .plain buf => plainBytes w buf
  | .dict _ ix => dictIndexBytes ix

/-- Modelled from the spec: the encoder state after `flush_values()`: value
accumulation is reset, the dictionary itself is retained (§4.2). -/
def Enc.flushReset : Enc → Enc
  | .plain _ => .plain []
  | .dict es _ => .dict es []

/-- Modelled from the spec: `dict_encoded_size()`, the size the dictionary
payload (a plain encoding of the distinct values) would occupy if
serialized now (§4.2).  The source only calls it through a cast to
`DictEncoder`, which is reachable only while dictionary encoding is active;
the plain case is given the vacuous value `0`. -/
def Enc.dictEncodedSize (w : Nat) : Enc → Nat
  | .plain _ => 0
  | .dict es _ => w * es.length

/-- Number of distinct dictionary entries (`DictEncoder::num_entries`). -/
def Enc.numEntries : Enc → Nat
  | .plain _ => 0
  | .dict es _ => es.length

/-- Modelled from the spec: `write_dict(buf)` serializes the dictionary
payload, "a plain encoding of the distinct values in insertion order"
(§4.2). -/
def Enc.dictBytes (w : Nat) : Enc → List Nat
  | .plain _ => []
  | .dict es _ => plainBytes w es

/-- The column descriptor fields read by the writer (schema paths are
modelled as `Nat` keys). -/
structure ColumnDescriptor where
  physical_type : PhysicalType
  path : Nat
  max_definition_level : Nat
  max_repetition_level : Nat
deriving Repr

/-- Modelled from the spec: the configuration options carried by
`WriterProperties` (`parquet/properties.h`, not under `src/`); the option
list follows §6 of the spec. -/
structure WriterProperties where
  encoding : Nat → Encoding
  dictionary_enabled : Nat → Bool
  dictionary_page_encoding : Encoding
  dictionary_index_encoding : Encoding
  dictionary_pagesize_limit : Nat
  data_pagesize : Nat
  write_batch_size : Nat

/-- The immutable data a constructed writer is bound to: descriptor,
properties, the expected row count, and the value encoding selected at
construction. -/
structure Config where
  descr : ColumnDescriptor
  props : WriterProperties
  expected_rows : Nat
  init_encoding : Encoding

/-- `has_dictionary_`, derived at construction exactly as the
`TypedColumnWriter` constructor does:
`encoding == PLAIN_DICTIONARY || encoding == RLE_DICTIONARY`. -/
def Config.hasDictionary (cfg : Config) : Bool :=
  cfg.init_encoding == .PLAIN_DICTIONARY || cfg.init_encoding == .RLE_DICTIONARY

/-- Plain byte width of the column's physical type. -/
def Config.w (cfg : Config) : Nat :=
  byteWidth cfg.descr.physical_type

/-- `CompressedDataPage`: the page descriptor assembled by `AddDataPage`.
The `uncompressed` field is the model's view of the `uncompressed_data_`
buffer contents at the moment the page was formed (before optional
compression); the source keeps that buffer separately and `bytes` is what
is handed to the pager. -/
structure CompressedDataPage where
  bytes : List Nat
  num_values : Nat
  encoding : Encoding
  definition_level_encoding : Encoding
  repetition_level_encoding : Encoding
  uncompressed_size : Nat
  uncompressed : List Nat
deriving DecidableEq, Repr

/-- `DictionaryPage`: payload, entry count and dictionary-value encoding. -/
structure DictionaryPage where
  bytes : List Nat
  num_entries : Nat
  encoding : Encoding
deriving DecidableEq, Repr

/-- One event observed by the `PageWriter` sink, in stream order. -/
inductive SinkEvent
  | dataPage (p : CompressedDataPage)
  | dictPage (p : DictionaryPage)
  | closeSink (has_dictionary : Bool) (fallback : Bool)
deriving DecidableEq, Repr

/-- The external collaborators the writer calls but does not implement:
arrow's RLE level encoder (`rle max_level levels` is the encoded
bitstream), the optional compressor held by the pager, and the byte counts
the pager reports for written pages (thrift header plus payload). -/
structure Env where
  rle : Nat → List Nat → List Nat
  compress : Option (List Nat → List Nat)
  dataPageCost : CompressedDataPage → Nat
  dictPageCost : DictionaryPage → Nat

/-- The mutable state of `ColumnWriter` / `TypedColumnWriter`.  The two
level sinks hold the raw levels accumulated since the last page cut (the
source stores their 2-byte serializations; the byte round-trip is left
implicit).  `sink` records the events handed to the pager, in order. -/
structure WriterState where
  definition_levels_sink : List Nat
  repetition_levels_sink : List Nat
  current_encoder : Enc
  num_buffered_values : Nat
  num_buffered_encoded_values : Nat
  num_rows : Nat
  total_bytes_written : Nat
  closed : Bool
  fallback : Bool
  encoding : Encoding
  data_pages : List CompressedDataPage
  sink : List SinkEvent
deriving Repr

/-- The encoder installed by the `TypedColumnWriter` constructor for a
supported encoding (other encodings are rejected before this is reached). -/
def initEnc : Encoding → Enc
  | .PLAIN_DICTIONARY => .dict [] []
  | .RLE_DICTIONARY => .dict [] []
  | _ => .plain []

/-- The freshly constructed writer state (constructor member initializers
of `ColumnWriter` plus the encoder choice of `TypedColumnWriter`). -/
def initState (cfg : Config) : WriterState :=
  { definition_levels_sink := []
    repetition_levels_sink := []
    current_encoder := initEnc cfg.init_encoding
    num_buffered_values := 0
    num_buffered_encoded_values := 0
    num_rows := 0
    total_bytes_written := 0
    closed := false
    fallback := false
    encoding := cfg.init_encoding
    data_pages := []
    sink := [] }

/-- The encodings the `TypedColumnWriter` constructor accepts; all others
hit `ParquetException::NYI("Selected encoding is not supported")`. -/
def supportedEncoding (e : Encoding) : Bool :=
  e == .PLAIN || e == .PLAIN_DICTIONARY || e == .RLE_DICTIONARY

/-- The `TypedColumnWriter` constructor: validates the selected encoding
and produces the initial state. -/
def mkTypedColumnWriter (cfg : Config) : Except String WriterState :=
  if supportedEncoding cfg.init_encoding then .ok (initState cfg)
  else .error "Selected encoding is not supported"

/-- The value encoding `ColumnWriter::Make` selects: the per-column
configured encoding, overridden by the configured dictionary page encoding
when dictionary encoding is enabled for the column's path and the physical
type is not BOOLEAN.  (Note the source reads `dictionary_page_encoding()`
here, not `dictionary_index_encoding()`.) -/
def selectedEncoding (props : WriterProperties) (descr : ColumnDescriptor) : Encoding :=
  if props.dictionary_enabled descr.path && descr.physical_type != .BOOLEAN then
    props.dictionary_page_encoding
  else
    props.encoding descr.path

/-- `ColumnWriter::Make`: selects the encoding, then dispatches on the
physical type.  Every value of the (total) type enumeration constructs a
typed writer, so the `NYI("type reader not implemented")` default branch of
the source's switch is unreachable; the only failure is the constructor's
unsupported-encoding rejection. -/
def ColumnWriter_Make (props : WriterProperties) (descr : ColumnDescriptor)
    (expected_rows : Nat) : Except String WriterState :=
  mkTypedColumnWriter
    { descr := descr, props := props, expected_rows := expected_rows
      init_encoding := selectedEncoding props descr }

/-- Four little-endian bytes of a 32-bit length prefix
(`reinterpret_cast<int32_t*>(dest)[0] = len`). -/
def u32le (n : Nat) : List Nat :=
  [n % 256, n / 256 % 256, n / 2 ^ 16 % 256, n / 2 ^ 24 % 256]

/-- `ColumnWriter::RleEncodeLevels`: encodes `count` levels from the level
sink into the reusable buffer, whose first 4 bytes hold the little-endian
encoded length followed by the RLE bytes; returns the buffer contents and
the encoded size `len + sizeof(int32_t)`.  (The source's buffer also holds
trailing head-room slack; only the first `encoded_size` bytes are ever read
back, so the model keeps exactly the written prefix.) -/
def rleEncodeLevels (env : Env) (levels : List Nat) (max_level : Nat)
    (count : Nat) : List Nat × Nat :=
  let encoded := env.rle max_level (levels.take count)
  (u32le encoded.length ++ encoded, encoded.length + 4)

/-- The spec-shaped description of a level chunk: a 4-byte little-endian
length prefix followed by the RLE bytes when the max level is positive,
omitted entirely otherwise (§6 "On-disk page payload layout"). -/
def levelChunk (env : Env) (max_level : Nat) (levels : List Nat) : List Nat :=
  if max_level > 0 then
    u32le (env.rle max_level levels).length ++ env.rle max_level levels
  else []

/-- The data page `ColumnWriter::AddDataPage` assembles from the current
state: flushed value payload, optional RLE level chunks, the concatenated
uncompressed buffer, optional compression, and the header fields
`(num_buffered_values, encoding_, RLE, RLE, uncompressed_size)`. -/
def cutPage (env : Env) (cfg : Config) (s : WriterState) : CompressedDataPage :=
  let values := s.current_encoder.flushBytes cfg.w
  let defPair :=
    if cfg.descr.max_definition_level > 0 then
      rleEncodeLevels env s.definition_levels_sink cfg.descr.max_definition_level
        s.num_buffered_values
    else (([] : List Nat), 0)
  let repPair :=
    if cfg.descr.max_repetition_level > 0 then
      rleEncodeLevels env s.repetition_levels_sink cfg.descr.max_repetition_level
        s.num_buffered_values
    else (([] : List Nat), 0)
  let uncompressed := repPair.1.take repPair.2 ++ defPair.1.take defPair.2 ++ values
  let uncompressed_size := defPair.2 + repPair.2 + values.length
  let bytes :=
    match env.compress with
    | some f => f uncompressed
    | none => uncompressed
  { bytes := bytes
    num_values := s.num_buffered_values
    encoding := s.encoding
    definition_level_encoding := .RLE
    repetition_level_encoding := .RLE
    uncompressed_size := uncompressed_size
    uncompressed := uncompressed }

/-- `ColumnWriter::WriteDataPage`: hand one page to the pager and account
the bytes it reports. -/
def writeDataPageOp (env : Env) (s : WriterState) (p : CompressedDataPage) :
    WriterState :=
  { s with sink := s.sink ++ [.dataPage p]
           total_bytes_written := s.total_bytes_written + env.dataPageCost p }

/-- `ColumnWriter::AddDataPage`: cut the page from the buffered state; while
dictionary encoding is active and not fallen back, deep-copy it into the
deferred queue, otherwise write it eagerly; then reset the level sinks and
the buffered counters. -/
def addDataPage (env : Env) (cfg : Config) (s : WriterState) : WriterState :=
  let page := cutPage env cfg s
  let s1 := { s with current_encoder := s.current_encoder.flushReset }
  let s2 :=
    if cfg.hasDictionary && !s1.fallback then
      { s1 with data_pages := s1.data_pages ++ [page] }
    else
      writeDataPageOp env s1 page
  { s2 with definition_levels_sink := []
            repetition_levels_sink := []
            num_buffered_values := 0
            num_buffered_encoded_values := 0 }

/-- The dictionary page `TypedColumnWriter::WriteDictionaryPage` forms:
the serialized dictionary, its entry count, and the configured
`dictionary_index_encoding`. -/
def dictPageOf (cfg : Config) (e : Enc) : DictionaryPage :=
  { bytes := e.dictBytes cfg.w
    num_entries := e.numEntries
    encoding := cfg.props.dictionary_index_encoding }

/-- `TypedColumnWriter::WriteDictionaryPage`: hand the dictionary page to
the pager and account the bytes it reports.  (The source also frees the
dictionary encoder's private arena, a memory effect with no observable
counterpart here.) -/
def writeDictionaryPage (env : Env) (cfg : Config) (s : WriterState) :
    WriterState :=
  let page := dictPageOf cfg s.current_encoder
  { s with sink := s.sink ++ [.dictPage page]
           total_bytes_written := s.total_bytes_written + env.dictPageCost page }

/-- `ColumnWriter::FlushBufferedDataPages`: cut a final page from any
outstanding buffered values, then write the deferred pages in FIFO order
and clear the queue. -/
def flushBufferedDataPages (env : Env) (cfg : Config) (s : WriterState) :
    WriterState :=
  let s1 := if s.num_buffered_values > 0 then addDataPage env cfg s else s
  let s2 := s1.data_pages.foldl (writeDataPageOp env) s1
  { s2 with data_pages := [] }

/-- `TypedColumnWriter::CheckDictionarySizeLimit`: once the dictionary
payload size reaches the configured limit, write the dictionary page, flush
the buffered data pages, mark the fallback, and replace the value encoder
with a fresh plain encoder under the PLAIN tag. -/
def checkDictionarySizeLimit (env : Env) (cfg : Config) (s : WriterState) :
    WriterState :=
  if s.current_encoder.dictEncodedSize cfg.w ≥ cfg.props.dictionary_pagesize_limit then
    let s1 := writeDictionaryPage env cfg s
    let s2 := flushBufferedDataPages env cfg s1
    { s2 with fallback := true
              current_encoder := .plain []
              encoding := .PLAIN }
  else s

/-- The message of the write-path row-budget throw, verbatim. -/
def overflowMsg : String :=
  "More rows were written in the column chunk than expected"

/-- The message of the close-path row-count throw, verbatim (including the
source's missing space before "in"). -/
def closeErrMsg (num_rows expected_rows : Nat) : String :=
  "Written rows: " ++ toString num_rows ++ " != expected rows: " ++
    toString expected_rows ++ "in the current column chunk"

/-- `TypedColumnWriter::WriteMiniBatch`.  The source reads exactly
`num_values` entries from the level arrays and `values_to_write` entries
from the value array; `List.take` mirrors that pointer-plus-count access.
On the row-budget throw the function returns the member state exactly as
mutated so far (levels appended, `num_rows_` updated) together with the
error. -/
def writeMiniBatch (env : Env) (cfg : Config) (s : WriterState)
    (num_values : Nat) (def_levels rep_levels values : List Nat) :
    WriterState × Except String Nat :=
  let maxDef := cfg.descr.max_definition_level
  let maxRep := cfg.descr.max_repetition_level
  let values_to_write :=
    if maxDef > 0 then (def_levels.take num_values).countP (· = maxDef) else num_values
  let s :=
    if maxDef > 0 then
      { s with definition_levels_sink :=
          s.definition_levels_sink ++ def_levels.take num_values }
    else s
  let s :=
    if maxRep > 0 then
      { s with num_rows := s.num_rows + (rep_levels.take num_values).countP (· = 0)
               repetition_levels_sink :=
          s.repetition_levels_sink ++ rep_levels.take num_values }
    else
      { s with num_rows := s.num_rows + num_values }
  if s.num_rows > cfg.expected_rows then
    (s, .error overflowMsg)
  else
    let s := { s with current_encoder :=
        s.current_encoder.put (values.take values_to_write) }
    let s := { s with num_buffered_values := s.num_buffered_values + num_values
                      num_buffered_encoded_values :=
        s.num_buffered_encoded_values + values_to_write }
    let s :=
      if s.current_encoder.estimatedDataEncodedSize cfg.w ≥ cfg.props.data_pagesize then
        addDataPage env cfg s
      else s
    let s :=
      if cfg.hasDictionary && !s.fallback then checkDictionarySizeLimit env cfg s
      else s
    (s, .ok values_to_write)

/-- One caller-supplied mini-batch of levels and values. -/
structure Batch where
  num_values : Nat
  def_levels : List Nat
  rep_levels : List Nat
  values : List Nat

/-- A sequence of mini-batch writes; an exception aborts the sequence with
the state at the throw site. -/
def writeMiniBatches (env : Env) (cfg : Config) :
    WriterState → List Batch → WriterState × Except String Unit
  | s, [] => (s, .ok ())
  | s, b :: bs =>
    match writeMiniBatch env cfg s b.num_values b.def_levels b.rep_levels b.values with
    | (s1, .ok _) => writeMiniBatches env cfg s1 bs
    | (s1, .error e) => (s1, .error e)

/-- The full-batch rounds of `TypedColumnWriter::WriteBatch`: `n` rounds of
`write_batch_size` values each, threading the running value offset, then
the caller handles the remainder. -/
def writeBatchRounds (env : Env) (cfg : Config) (wbs : Nat)
    (dls rls vs : List Nat) :
    Nat → Nat → Nat → WriterState → WriterState × Except String Nat
  | 0, _, value_offset, s => (s, .ok value_offset)
  | n + 1, round, value_offset, s =>
    let offset := round * wbs
    match writeMiniBatch env cfg s wbs (dls.drop offset) (rls.drop offset)
        (vs.drop value_offset) with
    | (s1, .ok k) =>
      writeBatchRounds env cfg wbs dls rls vs n (round + 1) (value_offset + k) s1
    | (s1, .error e) => (s1, .error e)

/-- `TypedColumnWriter::WriteBatch`: chunk the caller's input into
mini-batches of at most `write_batch_size` entries, then write the
remainder. -/
def writeBatch (env : Env) (cfg : Config) (s : WriterState) (num_values : Nat)
    (dls rls vs : List Nat) : WriterState × Except String Unit :=
  let wbs := cfg.props.write_batch_size
  match writeBatchRounds env cfg wbs dls rls vs (num_values / wbs) 0 0 s with
  | (s1, .error e) => (s1, .error e)
  | (s1, .ok value_offset) =>
    let offset := num_values / wbs * wbs
    match writeMiniBatch env cfg s1 (num_values % wbs) (dls.drop offset)
        (rls.drop offset) (vs.drop value_offset) with
    | (s2, .ok _) => (s2, .ok ())
    | (s2, .error e) => (s2, .error e)

/-- `ColumnWriter::Close`: on the first call, mark closed, emit the
dictionary page when dictionary encoding is active and never fell back,
flush the buffered pages, and close the pager with
`(has_dictionary, fallback)`.  In every call, throw when the row count does
not match the expectation, else return `total_bytes_written`.  (Attaching
the chunk statistics to the metadata builder is an effect on an external
collaborator not carried in the state.) -/
def closeFlushed (env : Env) (cfg : Config) (s : WriterState) : WriterState :=
  -- the guarded first-call body of Close; a second call leaves the state alone
  if !s.closed then
    let sa := { s with closed := true }
    let sb :=
      if cfg.hasDictionary && !sa.fallback then writeDictionaryPage env cfg sa
      else sa
    let sc := flushBufferedDataPages env cfg sb
    { sc with sink := sc.sink ++ [.closeSink cfg.hasDictionary sc.fallback] }
  else s

def closeW (env : Env) (cfg : Config) (s : WriterState) :
    WriterState × Except String Nat :=
  let s1 := closeFlushed env cfg s
  if s1.num_rows ≠ cfg.expected_rows then
    (s1, .error (closeErrMsg s1.num_rows cfg.expected_rows))
  else
    (s1, .ok s1.total_bytes_written)

/-! ### Concrete instances used by witnesses and counterexamples -/

/-- A concrete environment: an arbitrary (injective-free) stand-in RLE
bitstream, no compressor, and page costs equal to the payload length. -/
def env0 : Env :=
  { rle := fun _ ls => ls.map (· % 256)
    compress := none
    dataPageCost := fun p => p.bytes.length
    dictPageCost := fun p => p.bytes.length }

/-- Properties with dictionary encoding disabled. -/
def propsPlain (pagesize : Nat) : WriterProperties :=
  { encoding := fun _ => .PLAIN
    dictionary_enabled := fun _ => false
    dictionary_page_encoding := .PLAIN_DICTIONARY
    dictionary_index_encoding := .PLAIN_DICTIONARY
    dictionary_pagesize_limit := 100
    data_pagesize := pagesize
    write_batch_size := 1024 }

/-- Properties with dictionary encoding enabled. -/
def propsDict (pagesize dict_limit : Nat) : WriterProperties :=
  { encoding := fun _ => .PLAIN
    dictionary_enabled := fun _ => true
    dictionary_page_encoding := .PLAIN_DICTIONARY
    dictionary_index_encoding := .PLAIN_DICTIONARY
    dictionary_pagesize_limit := dict_limit
    data_pagesize := pagesize
    write_batch_size := 1024 }

/-- A flat required INT32 column (no levels). -/
def flatInt32 : ColumnDescriptor :=
  { physical_type := .INT32, path := 0
    max_definition_level := 0, max_repetition_level := 0 }

/-! ### Basic lemmas about the helper operations -/

theorem u32le_length (n : Nat) : (u32le n).length = 4 := rfl

theorem take_u32le_append (n : Nat) (l : List Nat) :
    (u32le n ++ l).take (l.length + 4) = u32le n ++ l := by
  apply List.take_of_length_le
  simp [List.length_append, u32le_length]
  omega

/-!
### C1 — uncompressed page payload layout

For every cut data page, the uncompressed buffer is
`[rep_chunk?][def_chunk?][value_payload]`, each present level chunk being a
4-byte little-endian length prefix followed by the RLE bytes, with the
whole chunk (prefix included) omitted when the corresponding max level is
zero.
-/

/-- C1: `AddDataPage` assembles the uncompressed page buffer as
`[repetition_chunk][definition_chunk][value_payload]`, where a level chunk
is `u32_le(encoded_length) ++ rle_bytes` and is omitted entirely (length
prefix included) when its max level is zero.  The hypotheses state that the
level sinks hold exactly the buffered levels, which is the writer's steady
state between page cuts. -/
theorem c1_page_layout (env : Env) (cfg : Config) (s : WriterState)
    (hdef : cfg.descr.max_definition_level > 0 →
      s.definition_levels_sink.length = s.num_buffered_values)
    (hrep : cfg.descr.max_repetition_level > 0 →
      s.repetition_levels_sink.length = s.num_buffered_values) :
    (cutPage env cfg s).uncompressed =
      levelChunk env cfg.descr.max_repetition_level s.repetition_levels_sink ++
        levelChunk env cfg.descr.max_definition_level s.definition_levels_sink ++
        s.current_encoder.flushBytes cfg.w := by
  have hchunk : ∀ (levels : List Nat) (m : Nat),
      levels.length = s.num_buffered_values →
      (rleEncodeLevels env levels m s.num_buffered_values).1.take
        (rleEncodeLevels env levels m s.num_buffered_values).2 =
      u32le (env.rle m levels).length ++ env.rle m levels := by
    intro levels m hl
    simp only [rleEncodeLevels, ← hl, List.take_length]
    exact take_u32le_append _ _
  by_cases hd : cfg.descr.max_definition_level > 0
  · by_cases hr : cfg.descr.max_repetition_level > 0
    · simp [cutPage, levelChunk, hd, hr, hchunk _ _ (hdef hd), hchunk _ _ (hrep hr)]
    · simp [cutPage, levelChunk, hd, hr, hchunk _ _ (hdef hd)]
  · by_cases hr : cfg.descr.max_repetition_level > 0
    · simp [cutPage, levelChunk, hd, hr, hchunk _ _ (hrep hr)]
    · simp [cutPage, levelChunk, hd, hr]

/-- Witness for C1 at a concrete nullable column state: one buffered level
equal to the max definition level, empty repetition side. -/
theorem c1_page_layout_witness :
    ((({ descr := { physical_type := .INT32, path := 0
                    max_definition_level := 1, max_repetition_level := 0 }
         props := propsPlain 100, expected_rows := 5
         init_encoding := .PLAIN } : Config)).descr.max_definition_level > 0 →
      ([1] : List Nat).length = 1) ∧
    (cutPage env0
        { descr := { physical_type := .INT32, path := 0
                     max_definition_level := 1, max_repetition_level := 0 }
          props := propsPlain 100, expected_rows := 5
          init_encoding := .PLAIN }
        { initState
            { descr := { physical_type := .INT32, path := 0
                         max_definition_level := 1, max_repetition_level := 0 }
              props := propsPlain 100, expected_rows := 5
              init_encoding := .PLAIN } with
          definition_levels_sink := [1]
          num_buffered_values := 1
          current_encoder := .plain [7] }).uncompressed =
      levelChunk env0 0 [] ++ levelChunk env0 1 [1] ++
        (Enc.plain [7]).flushBytes 4 :=
  ⟨fun _ => rfl,
    c1_page_layout env0 _ _ (fun _ => rfl) (by intro h; exact absurd h (by decide))⟩

/-! ### Shape and preservation lemmas for the writer operations -/

theorem writeDictionaryPage_eq (env : Env) (cfg : Config) (s : WriterState) :
    writeDictionaryPage env cfg s =
      { s with sink := s.sink ++ [.dictPage (dictPageOf cfg s.current_encoder)]
               total_bytes_written := s.total_bytes_written +
                 env.dictPageCost (dictPageOf cfg s.current_encoder) } := rfl

theorem addDataPage_eq (env : Env) (cfg : Config) (s : WriterState) :
    addDataPage env cfg s =
      if cfg.hasDictionary && !s.fallback then
        { s with current_encoder := s.current_encoder.flushReset
                 definition_levels_sink := []
                 repetition_levels_sink := []
                 num_buffered_values := 0
                 num_buffered_encoded_values := 0
                 data_pages := s.data_pages ++ [cutPage env cfg s] }
      else
        { s with current_encoder := s.current_encoder.flushReset
                 definition_levels_sink := []
                 repetition_levels_sink := []
                 num_buffered_values := 0
                 num_buffered_encoded_values := 0
                 sink := s.sink ++ [.dataPage (cutPage env cfg s)]
                 total_bytes_written := s.total_bytes_written +
                   env.dataPageCost (cutPage env cfg s) } := by
  simp only [addDataPage, writeDataPageOp]
  split <;> rfl

@[simp]
theorem addDataPage_num_rows (env : Env) (cfg : Config) (s : WriterState) :
    (addDataPage env cfg s).num_rows = s.num_rows := by
  rw [addDataPage_eq]; split <;> rfl

@[simp]
theorem addDataPage_closed (env : Env) (cfg : Config) (s : WriterState) :
    (addDataPage env cfg s).closed = s.closed := by
  rw [addDataPage_eq]; split <;> rfl

@[simp]
theorem addDataPage_fallback (env : Env) (cfg : Config) (s : WriterState) :
    (addDataPage env cfg s).fallback = s.fallback := by
  rw [addDataPage_eq]; split <;> rfl

@[simp]
theorem addDataPage_encoding (env : Env) (cfg : Config) (s : WriterState) :
    (addDataPage env cfg s).encoding = s.encoding := by
  rw [addDataPage_eq]; split <;> rfl

@[simp]
theorem addDataPage_num_buffered (env : Env) (cfg : Config) (s : WriterState) :
    (addDataPage env cfg s).num_buffered_values = 0 := by
  rw [addDataPage_eq]; split <;> rfl

theorem foldl_writeDataPageOp_eq (env : Env) (l : List CompressedDataPage)
    (s : WriterState) :
    l.foldl (writeDataPageOp env) s =
      { s with sink := s.sink ++ l.map SinkEvent.dataPage
               total_bytes_written :=
                 s.total_bytes_written + (l.map env.dataPageCost).sum } := by
  induction l generalizing s with
  | nil => simp
  | cons p t ih =>
    simp [writeDataPageOp, ih, List.append_assoc, Nat.add_assoc]

/-- The data pages `FlushBufferedDataPages` hands to the pager, in order:
in the deferred regime the residual page (if any) is queued behind the
already-deferred pages; in the eager regime it is written before them. -/
def flushedPages (env : Env) (cfg : Config) (s : WriterState) :
    List CompressedDataPage :=
  if 0 < s.num_buffered_values then
    if cfg.hasDictionary && !s.fallback then s.data_pages ++ [cutPage env cfg s]
    else cutPage env cfg s :: s.data_pages
  else s.data_pages

@[simp]
theorem flush_num_rows (env : Env) (cfg : Config) (s : WriterState) :
    (flushBufferedDataPages env cfg s).num_rows = s.num_rows := by
  simp only [flushBufferedDataPages, foldl_writeDataPageOp_eq]
  split <;> simp

@[simp]
theorem flush_closed (env : Env) (cfg : Config) (s : WriterState) :
    (flushBufferedDataPages env cfg s).closed = s.closed := by
  simp only [flushBufferedDataPages, foldl_writeDataPageOp_eq]
  split <;> simp

@[simp]
theorem flush_fallback (env : Env) (cfg : Config) (s : WriterState) :
    (flushBufferedDataPages env cfg s).fallback = s.fallback := by
  simp only [flushBufferedDataPages, foldl_writeDataPageOp_eq]
  split <;> simp

@[simp]
theorem flush_data_pages (env : Env) (cfg : Config) (s : WriterState) :
    (flushBufferedDataPages env cfg s).data_pages = [] := by
  simp only [flushBufferedDataPages, foldl_writeDataPageOp_eq]

@[simp]
theorem flush_num_buffered (env : Env) (cfg : Config) (s : WriterState) :
    (flushBufferedDataPages env cfg s).num_buffered_values = 0 := by
  simp only [flushBufferedDataPages, foldl_writeDataPageOp_eq]
  by_cases h : 0 < s.num_buffered_values
  · simp [h]
  · simp [h, Nat.eq_zero_of_not_pos h]

theorem flush_sink (env : Env) (cfg : Config) (s : WriterState) :
    (flushBufferedDataPages env cfg s).sink =
      s.sink ++ (flushedPages env cfg s).map SinkEvent.dataPage := by
  simp only [flushBufferedDataPages, foldl_writeDataPageOp_eq, flushedPages]
  by_cases h : 0 < s.num_buffered_values
  · rw [addDataPage_eq]
    by_cases hd : (cfg.hasDictionary && !s.fallback) = true <;>
      simp [h, hd, List.append_assoc]
  · simp [h]

@[simp]
theorem checkDict_num_rows (env : Env) (cfg : Config) (s : WriterState) :
    (checkDictionarySizeLimit env cfg s).num_rows = s.num_rows := by
  simp only [checkDictionarySizeLimit]
  split <;> simp [writeDictionaryPage_eq]

@[simp]
theorem checkDict_closed (env : Env) (cfg : Config) (s : WriterState) :
    (checkDictionarySizeLimit env cfg s).closed = s.closed := by
  simp only [checkDictionarySizeLimit]
  split <;> simp [writeDictionaryPage_eq]

theorem checkDict_of_trigger (env : Env) (cfg : Config) (s : WriterState)
    (h : s.current_encoder.dictEncodedSize cfg.w ≥
      cfg.props.dictionary_pagesize_limit) :
    checkDictionarySizeLimit env cfg s =
      { flushBufferedDataPages env cfg (writeDictionaryPage env cfg s) with
          fallback := true
          current_encoder := .plain []
          encoding := .PLAIN } := by
  simp [checkDictionarySizeLimit, h]

theorem checkDict_of_no_trigger (env : Env) (cfg : Config) (s : WriterState)
    (h : ¬ s.current_encoder.dictEncodedSize cfg.w ≥
      cfg.props.dictionary_pagesize_limit) :
    checkDictionarySizeLimit env cfg s = s := by
  simp [checkDictionarySizeLimit, h]

/-- The state after the level-processing steps 1-2 of `WriteMiniBatch`
(definition levels appended, repetition levels appended, `num_rows_`
advanced), i.e. the member state at the row-budget check. -/
def afterLevels (cfg : Config) (s : WriterState) (nv : Nat) (dl rl : List Nat) :
    WriterState :=
  let s1 :=
    if cfg.descr.max_definition_level > 0 then
      { s with definition_levels_sink := s.definition_levels_sink ++ dl.take nv }
    else s
  if cfg.descr.max_repetition_level > 0 then
    { s1 with num_rows := s1.num_rows + (rl.take nv).countP (· = 0)
              repetition_levels_sink := s1.repetition_levels_sink ++ rl.take nv }
  else
    { s1 with num_rows := s1.num_rows + nv }

/-- The number of non-null values `WriteMiniBatch` passes to the value
encoder: levels equal to the max definition level, or all of them for a
required column. -/
def valuesToWrite (cfg : Config) (nv : Nat) (dl : List Nat) : Nat :=
  if cfg.descr.max_definition_level > 0 then
    (dl.take nv).countP (· = cfg.descr.max_definition_level)
  else nv

/-- Steps 4-5 of `WriteMiniBatch`: encoder `Put` and the buffered
counters. -/
def afterValues (cfg : Config) (t : WriterState) (nv : Nat) (dl vs : List Nat) :
    WriterState :=
  let t1 := { t with current_encoder :=
      t.current_encoder.put (vs.take (valuesToWrite cfg nv dl)) }
  { t1 with num_buffered_values := t1.num_buffered_values + nv
            num_buffered_encoded_values :=
              t1.num_buffered_encoded_values + valuesToWrite cfg nv dl }

/-- Steps 6-7 of `WriteMiniBatch`: the page-size cut and the dictionary
limit check. -/
def maybeCutAndCheck (env : Env) (cfg : Config) (t : WriterState) : WriterState :=
  let t1 :=
    if t.current_encoder.estimatedDataEncodedSize cfg.w ≥ cfg.props.data_pagesize then
      addDataPage env cfg t
    else t
  if cfg.hasDictionary && !t1.fallback then checkDictionarySizeLimit env cfg t1
  else t1

theorem writeMiniBatch_eq (env : Env) (cfg : Config) (s : WriterState)
    (nv : Nat) (dl rl vs : List Nat) :
    writeMiniBatch env cfg s nv dl rl vs =
      if (afterLevels cfg s nv dl rl).num_rows > cfg.expected_rows then
        (afterLevels cfg s nv dl rl, .error overflowMsg)
      else
        (maybeCutAndCheck env cfg
          (afterValues cfg (afterLevels cfg s nv dl rl) nv dl vs),
         .ok (valuesToWrite cfg nv dl)) := by
  simp only [writeMiniBatch, afterLevels, valuesToWrite, afterValues,
    maybeCutAndCheck]

@[simp]
theorem afterLevels_num_rows (cfg : Config) (s : WriterState) (nv : Nat)
    (dl rl : List Nat) :
    (afterLevels cfg s nv dl rl).num_rows =
      s.num_rows + (if cfg.descr.max_repetition_level > 0 then
        (rl.take nv).countP (· = 0) else nv) := by
  simp only [afterLevels]
  by_cases hd : cfg.descr.max_definition_level > 0 <;>
    by_cases hr : cfg.descr.max_repetition_level > 0 <;> simp [hd, hr]

@[simp]
theorem afterLevels_closed (cfg : Config) (s : WriterState) (nv : Nat)
    (dl rl : List Nat) : (afterLevels cfg s nv dl rl).closed = s.closed := by
  simp only [afterLevels]
  by_cases hd : cfg.descr.max_definition_level > 0 <;>
    by_cases hr : cfg.descr.max_repetition_level > 0 <;> simp [hd, hr]

@[simp]
theorem afterLevels_fallback (cfg : Config) (s : WriterState) (nv : Nat)
    (dl rl : List Nat) : (afterLevels cfg s nv dl rl).fallback = s.fallback := by
  simp only [afterLevels]
  by_cases hd : cfg.descr.max_definition_level > 0 <;>
    by_cases hr : cfg.descr.max_repetition_level > 0 <;> simp [hd, hr]

@[simp]
theorem afterLevels_sink (cfg : Config) (s : WriterState) (nv : Nat)
    (dl rl : List Nat) : (afterLevels cfg s nv dl rl).sink = s.sink := by
  simp only [afterLevels]
  by_cases hd : cfg.descr.max_definition_level > 0 <;>
    by_cases hr : cfg.descr.max_repetition_level > 0 <;> simp [hd, hr]

@[simp]
theorem afterLevels_data_pages (cfg : Config) (s : WriterState) (nv : Nat)
    (dl rl : List Nat) :
    (afterLevels cfg s nv dl rl).data_pages = s.data_pages := by
  simp only [afterLevels]
  by_cases hd : cfg.descr.max_definition_level > 0 <;>
    by_cases hr : cfg.descr.max_repetition_level > 0 <;> simp [hd, hr]

@[simp]
theorem afterLevels_num_buffered (cfg : Config) (s : WriterState) (nv : Nat)
    (dl rl : List Nat) :
    (afterLevels cfg s nv dl rl).num_buffered_values = s.num_buffered_values := by
  simp only [afterLevels]
  by_cases hd : cfg.descr.max_definition_level > 0 <;>
    by_cases hr : cfg.descr.max_repetition_level > 0 <;> simp [hd, hr]

@[simp]
theorem afterLevels_encoder (cfg : Config) (s : WriterState) (nv : Nat)
    (dl rl : List Nat) :
    (afterLevels cfg s nv dl rl).current_encoder = s.current_encoder := by
  simp only [afterLevels]
  by_cases hd : cfg.descr.max_definition_level > 0 <;>
    by_cases hr : cfg.descr.max_repetition_level > 0 <;> simp [hd, hr]

theorem afterLevels_def_sink (cfg : Config) (s : WriterState) (nv : Nat)
    (dl rl : List Nat) :
    (afterLevels cfg s nv dl rl).definition_levels_sink =
      if cfg.descr.max_definition_level > 0 then
        s.definition_levels_sink ++ dl.take nv
      else s.definition_levels_sink := by
  simp only [afterLevels]
  by_cases hd : cfg.descr.max_definition_level > 0 <;>
    by_cases hr : cfg.descr.max_repetition_level > 0 <;> simp [hd, hr]

theorem afterLevels_rep_sink (cfg : Config) (s : WriterState) (nv : Nat)
    (dl rl : List Nat) :
    (afterLevels cfg s nv dl rl).repetition_levels_sink =
      if cfg.descr.max_repetition_level > 0 then
        s.repetition_levels_sink ++ rl.take nv
      else s.repetition_levels_sink := by
  simp only [afterLevels]
  by_cases hd : cfg.descr.max_definition_level > 0 <;>
    by_cases hr : cfg.descr.max_repetition_level > 0 <;> simp [hd, hr]

@[simp]
theorem afterValues_num_rows (cfg : Config) (t : WriterState) (nv : Nat)
    (dl vs : List Nat) : (afterValues cfg t nv dl vs).num_rows = t.num_rows := rfl

@[simp]
theorem afterValues_closed (cfg : Config) (t : WriterState) (nv : Nat)
    (dl vs : List Nat) : (afterValues cfg t nv dl vs).closed = t.closed := rfl

@[simp]
theorem afterValues_fallback (cfg : Config) (t : WriterState) (nv : Nat)
    (dl vs : List Nat) : (afterValues cfg t nv dl vs).fallback = t.fallback := rfl

@[simp]
theorem afterValues_sink (cfg : Config) (t : WriterState) (nv : Nat)
    (dl vs : List Nat) : (afterValues cfg t nv dl vs).sink = t.sink := rfl

@[simp]
theorem maybeCutAndCheck_num_rows (env : Env) (cfg : Config) (t : WriterState) :
    (maybeCutAndCheck env cfg t).num_rows = t.num_rows := by
  simp only [maybeCutAndCheck]
  split <;> split <;> simp

@[simp]
theorem maybeCutAndCheck_closed (env : Env) (cfg : Config) (t : WriterState) :
    (maybeCutAndCheck env cfg t).closed = t.closed := by
  simp only [maybeCutAndCheck]
  split <;> split <;> simp

theorem writeMiniBatch_num_rows (env : Env) (cfg : Config) (s : WriterState)
    (nv : Nat) (dl rl vs : List Nat) :
    (writeMiniBatch env cfg s nv dl rl vs).1.num_rows =
      s.num_rows + (if cfg.descr.max_repetition_level > 0 then
        (rl.take nv).countP (· = 0) else nv) := by
  rw [writeMiniBatch_eq]
  split <;> simp

theorem writeMiniBatch_closed (env : Env) (cfg : Config) (s : WriterState)
    (nv : Nat) (dl rl vs : List Nat) :
    (writeMiniBatch env cfg s nv dl rl vs).1.closed = s.closed := by
  rw [writeMiniBatch_eq]
  split <;> simp

/-- The only throw in `WriteMiniBatch` is the row-budget throw, and it
returns the member state at the throw site. -/
theorem writeMiniBatch_error (env : Env) (cfg : Config) (s : WriterState)
    (nv : Nat) (dl rl vs : List Nat) (e : String)
    (h : (writeMiniBatch env cfg s nv dl rl vs).2 = .error e) :
    e = overflowMsg ∧
      writeMiniBatch env cfg s nv dl rl vs = (afterLevels cfg s nv dl rl, .error overflowMsg) ∧
      (afterLevels cfg s nv dl rl).num_rows > cfg.expected_rows := by
  rw [writeMiniBatch_eq] at h
  by_cases ho : (afterLevels cfg s nv dl rl).num_rows > cfg.expected_rows
  · rw [if_pos ho] at h
    simp only [Except.error.injEq] at h
    exact ⟨h.symm, by rw [writeMiniBatch_eq, if_pos ho], ho⟩
  · rw [if_neg ho] at h
    simp at h

@[simp]
theorem closeFlushed_num_rows (env : Env) (cfg : Config) (s : WriterState) :
    (closeFlushed env cfg s).num_rows = s.num_rows := by
  simp only [closeFlushed]
  split
  · split <;> simp [writeDictionaryPage_eq]
  · rfl

/-- A flat required INT32 column configuration with plain encoding. -/
def cfgFlat (expected pagesize : Nat) : Config :=
  { descr := flatInt32, props := propsPlain pagesize, expected_rows := expected
    init_encoding := .PLAIN }

/-!
### C10 — no rollback on the row-budget error

When a mini-batch write fails with the row-budget error, the state is not
rolled back: the batch's levels are already in the level sinks and
`num_rows` already includes the overflowing rows at the moment the error is
raised.
-/

/-- C10: if `WriteMiniBatch` raises the row-budget error, the returned
(member) state already holds the offending batch's definition and
repetition levels in the level sinks, and `num_rows` already counts the
batch's rows and exceeds `expected_rows`. -/
theorem c10_no_rollback (env : Env) (cfg : Config) (s : WriterState)
    (nv : Nat) (dl rl vs : List Nat) (e : String)
    (h : (writeMiniBatch env cfg s nv dl rl vs).2 = .error e) :
    (writeMiniBatch env cfg s nv dl rl vs).1.definition_levels_sink =
      (if cfg.descr.max_definition_level > 0 then
        s.definition_levels_sink ++ dl.take nv else s.definition_levels_sink) ∧
    (writeMiniBatch env cfg s nv dl rl vs).1.repetition_levels_sink =
      (if cfg.descr.max_repetition_level > 0 then
        s.repetition_levels_sink ++ rl.take nv else s.repetition_levels_sink) ∧
    (writeMiniBatch env cfg s nv dl rl vs).1.num_rows =
      s.num_rows + (if cfg.descr.max_repetition_level > 0 then
        (rl.take nv).countP (· = 0) else nv) ∧
    (writeMiniBatch env cfg s nv dl rl vs).1.num_rows > cfg.expected_rows := by
  obtain ⟨-, heq, ho⟩ := writeMiniBatch_error env cfg s nv dl rl vs e h
  rw [heq]
  exact ⟨afterLevels_def_sink cfg s nv dl rl, afterLevels_rep_sink cfg s nv dl rl,
    afterLevels_num_rows cfg s nv dl rl, ho⟩

/-- Witness for C10: a flat column bound to one expected row receiving two
values; the error is raised and the state carries the updated counters. -/
theorem c10_no_rollback_witness :
    ((writeMiniBatch env0 (cfgFlat 1 100) (initState (cfgFlat 1 100))
        2 [] [] [5, 6]).2 = Except.error overflowMsg) ∧
    ((writeMiniBatch env0 (cfgFlat 1 100) (initState (cfgFlat 1 100))
        2 [] [] [5, 6]).1.definition_levels_sink =
      (if (cfgFlat 1 100).descr.max_definition_level > 0 then
        (initState (cfgFlat 1 100)).definition_levels_sink ++ ([] : List Nat).take 2
        else (initState (cfgFlat 1 100)).definition_levels_sink) ∧
    (writeMiniBatch env0 (cfgFlat 1 100) (initState (cfgFlat 1 100))
        2 [] [] [5, 6]).1.repetition_levels_sink =
      (if (cfgFlat 1 100).descr.max_repetition_level > 0 then
        (initState (cfgFlat 1 100)).repetition_levels_sink ++ ([] : List Nat).take 2
        else (initState (cfgFlat 1 100)).repetition_levels_sink) ∧
    (writeMiniBatch env0 (cfgFlat 1 100) (initState (cfgFlat 1 100))
        2 [] [] [5, 6]).1.num_rows =
      (initState (cfgFlat 1 100)).num_rows +
        (if (cfgFlat 1 100).descr.max_repetition_level > 0 then
          (([] : List Nat).take 2).countP (· = 0) else 2) ∧
    (writeMiniBatch env0 (cfgFlat 1 100) (initState (cfgFlat 1 100))
        2 [] [] [5, 6]).1.num_rows > (cfgFlat 1 100).expected_rows) :=
  ⟨rfl, c10_no_rollback env0 (cfgFlat 1 100) (initState (cfgFlat 1 100))
    2 [] [] [5, 6] overflowMsg rfl⟩

/-!
### C3 — error payloads of the row-budget failures

The claim states that both the mid-write overflow error and the close-time
mismatch error carry both counts.  The close-time message does; the
mid-write message is a fixed string carrying neither count, so the claim is
corrected.
-/

/-- Bool-valued contiguous-sublist test used to state "the error message
carries the count". -/
def listInfix (a b : List Char) : Bool :=
  (List.range (b.length + 1)).any fun i => a.isPrefixOf (b.drop i)

/-- Substring test on strings. -/
def strContains (sub s : String) : Bool :=
  listInfix sub.data s.data

theorem strContains_of_data (x s : String) (a b : List Char)
    (h : s.data = a ++ (x.data ++ b)) : strContains x s = true := by
  simp only [strContains, listInfix]
  rw [List.any_eq_true]
  refine ⟨a.length, ?_, ?_⟩
  · rw [List.mem_range, h]
    simp [List.length_append]
    omega
  · rw [h, List.drop_left, List.isPrefixOf_iff_prefix]
    exact ⟨b, rfl⟩

/-- Counterexample to C3 as stated: on a flat column expecting one row, a
two-value write raises the row-budget error, whose message is the fixed
string and carries neither the written count (2) nor the expected count
(1). -/
theorem c3_counterexample :
    (writeMiniBatch env0 (cfgFlat 1 100) (initState (cfgFlat 1 100))
        2 [] [] [5, 6]).2 = Except.error overflowMsg ∧
    (writeMiniBatch env0 (cfgFlat 1 100) (initState (cfgFlat 1 100))
        2 [] [] [5, 6]).1.num_rows = 2 ∧
    (cfgFlat 1 100).expected_rows = 1 ∧
    strContains (toString (2 : Nat)) overflowMsg = false ∧
    strContains (toString (1 : Nat)) overflowMsg = false := by
  exact ⟨rfl, rfl, rfl, by decide, by decide⟩

/-- C3 as amended: the only mid-write failure is the row-budget throw,
whose message is the fixed count-free string `overflowMsg`; at close, a row
count differing from the expectation raises an error whose message carries
both counts as decimal substrings. -/
theorem c3_error_payloads (env : Env) (cfg : Config) (s : WriterState)
    (nv : Nat) (dl rl vs : List Nat) :
    (∀ e, (writeMiniBatch env cfg s nv dl rl vs).2 = .error e → e = overflowMsg) ∧
    (s.num_rows ≠ cfg.expected_rows →
      (closeW env cfg s).2 = .error (closeErrMsg s.num_rows cfg.expected_rows) ∧
      strContains (toString s.num_rows)
        (closeErrMsg s.num_rows cfg.expected_rows) = true ∧
      strContains (toString cfg.expected_rows)
        (closeErrMsg s.num_rows cfg.expected_rows) = true) := by
  constructor
  · intro e he
    exact (writeMiniBatch_error env cfg s nv dl rl vs e he).1
  · intro hne
    refine ⟨?_, ?_, ?_⟩
    · simp only [closeW, closeFlushed_num_rows]
      rw [if_pos hne]
    · exact strContains_of_data _ _ "Written rows: ".data
        (" != expected rows: ".data ++ ((toString cfg.expected_rows).data ++
          "in the current column chunk".data))
        (by simp [closeErrMsg, List.append_assoc])
    · exact strContains_of_data _ _
        ("Written rows: ".data ++ ((toString s.num_rows).data ++
          " != expected rows: ".data))
        ("in the current column chunk".data)
        (by simp [closeErrMsg, List.append_assoc])

/-- Witness for C3 (amended): closing a fresh writer that expected one row
yields the mismatch error whose message carries both counts. -/
theorem c3_error_payloads_witness :
    (closeW env0 (cfgFlat 1 100) (initState (cfgFlat 1 100))).2 =
      Except.error (closeErrMsg 0 1) ∧
    strContains (toString (0 : Nat)) (closeErrMsg 0 1) = true ∧
    strContains (toString (1 : Nat)) (closeErrMsg 0 1) = true :=
  (c3_error_payloads env0 (cfgFlat 1 100) (initState (cfgFlat 1 100))
    0 [] [] []).2 (by decide)

/-!
### C8 — double close

The claim states a second close is not permitted.  The source guards the
close body with `if (!closed_)` and then re-checks only the row count, so a
second close on a successfully closed writer completes normally (again
returning `total_bytes_written`): the claim is corrected to idempotence.
-/

/-- Counterexample to C8 as stated: on a writer that expected zero rows,
the first close succeeds, marks the writer closed, and a second close
completes as a normal successful operation returning the same byte
count. -/
theorem c8_counterexample :
    (closeW env0 (cfgFlat 0 100) (initState (cfgFlat 0 100))).2 = Except.ok 0 ∧
    (closeW env0 (cfgFlat 0 100) (initState (cfgFlat 0 100))).1.closed = true ∧
    (closeW env0 (cfgFlat 0 100)
      (closeW env0 (cfgFlat 0 100) (initState (cfgFlat 0 100))).1).2 =
      Except.ok 0 ∧
    (closeW env0 (cfgFlat 0 100)
      (closeW env0 (cfgFlat 0 100) (initState (cfgFlat 0 100))).1).1 =
      (closeW env0 (cfgFlat 0 100) (initState (cfgFlat 0 100))).1 := by
  exact ⟨rfl, rfl, rfl, rfl⟩

/-- C8 as amended: close on an already-closed writer is a no-op guarded by
the `closed_` flag: the state is unchanged and the call returns
`total_bytes_written` again when the row count matches (and re-raises the
mismatch error otherwise); it never performs any page writing. -/
theorem c8_close_idempotent (env : Env) (cfg : Config) (s : WriterState)
    (h : s.closed = true) :
    closeW env cfg s =
      (s, if s.num_rows = cfg.expected_rows then Except.ok s.total_bytes_written
          else Except.error (closeErrMsg s.num_rows cfg.expected_rows)) := by
  simp only [closeW, closeFlushed, h]
  by_cases hn : s.num_rows = cfg.expected_rows <;> simp [hn]

/-- Witness for C8 (amended): a concrete closed writer state. -/
theorem c8_close_idempotent_witness :
    ((closeW env0 (cfgFlat 0 100) (initState (cfgFlat 0 100))).1.closed = true) ∧
    closeW env0 (cfgFlat 0 100)
        (closeW env0 (cfgFlat 0 100) (initState (cfgFlat 0 100))).1 =
      ((closeW env0 (cfgFlat 0 100) (initState (cfgFlat 0 100))).1,
        if (closeW env0 (cfgFlat 0 100) (initState (cfgFlat 0 100))).1.num_rows =
            (cfgFlat 0 100).expected_rows then
          Except.ok (closeW env0 (cfgFlat 0 100)
            (initState (cfgFlat 0 100))).1.total_bytes_written
        else
          Except.error (closeErrMsg
            (closeW env0 (cfgFlat 0 100) (initState (cfgFlat 0 100))).1.num_rows
            (cfgFlat 0 100).expected_rows) ) :=
  ⟨rfl, c8_close_idempotent env0 (cfgFlat 0 100)
    (closeW env0 (cfgFlat 0 100) (initState (cfgFlat 0 100))).1 rfl⟩

/-!
### C9 — zero-value batch

The claim states a zero-value batch is a no-op for every writer state and
configuration.  The page-size and dictionary-limit checks of the write path
run even for an empty batch, so with `data_pagesize = 0` a zero batch cuts
(and writes) an empty page: the claim is corrected to hold away from those
threshold conditions.
-/

@[simp]
theorem Enc.put_nil (e : Enc) : e.put [] = e := by
  cases e <;> simp [Enc.put]

theorem afterLevels_zero (cfg : Config) (s : WriterState) (dl rl : List Nat) :
    afterLevels cfg s 0 dl rl = s := by
  simp only [afterLevels]
  by_cases hd : cfg.descr.max_definition_level > 0 <;>
    by_cases hr : cfg.descr.max_repetition_level > 0 <;> simp [hd, hr]

theorem valuesToWrite_zero (cfg : Config) (dl : List Nat) :
    valuesToWrite cfg 0 dl = 0 := by
  simp only [valuesToWrite]
  split <;> simp

theorem afterValues_zero (cfg : Config) (s : WriterState) (dl vs : List Nat) :
    afterValues cfg s 0 dl vs = s := by
  simp [afterValues, valuesToWrite_zero]

/-- Counterexample to C9 as stated: with `data_pagesize = 0`, a zero-value
batch on a fresh flat-column writer cuts an empty page and writes it to the
sink, while still returning success — the writer's observable state
changed. -/
theorem c9_counterexample :
    (writeBatch env0 (cfgFlat 0 0) (initState (cfgFlat 0 0)) 0 [] [] []).2 =
      Except.ok () ∧
    (writeBatch env0 (cfgFlat 0 0) (initState (cfgFlat 0 0)) 0 [] [] []).1.sink =
      [SinkEvent.dataPage (cutPage env0 (cfgFlat 0 0) (initState (cfgFlat 0 0)))] ∧
    (initState (cfgFlat 0 0)).sink = [] := by
  exact ⟨rfl, rfl, rfl⟩

/-- C9 as amended: a zero-value batch is a no-op (no page cut, no row
increment, nothing written, state unchanged) provided the row budget is not
already exhausted past its bound, the encoder's estimated size is below
`data_pagesize`, and — while dictionary encoding is active — the dictionary
payload is below its limit.  This covers every state the writer reaches
under the source's own guards with positive thresholds. -/
theorem c9_zero_batch (env : Env) (cfg : Config) (s : WriterState)
    (dl rl vs : List Nat)
    (hrows : s.num_rows ≤ cfg.expected_rows)
    (hest : s.current_encoder.estimatedDataEncodedSize cfg.w <
      cfg.props.data_pagesize)
    (hdict : (cfg.hasDictionary && !s.fallback) = true →
      s.current_encoder.dictEncodedSize cfg.w <
        cfg.props.dictionary_pagesize_limit) :
    writeMiniBatch env cfg s 0 dl rl vs = (s, .ok 0) ∧
    writeBatch env cfg s 0 dl rl vs = (s, .ok ()) := by
  have h1 : writeMiniBatch env cfg s 0 dl rl vs = (s, .ok 0) := by
    rw [writeMiniBatch_eq, afterLevels_zero, afterValues_zero]
    rw [if_neg (by omega)]
    rw [valuesToWrite_zero]
    have hmc : maybeCutAndCheck env cfg s = s := by
      simp only [maybeCutAndCheck]
      have hcut : (if s.current_encoder.estimatedDataEncodedSize cfg.w ≥
          cfg.props.data_pagesize then addDataPage env cfg s else s) = s := by
        rw [if_neg (by omega)]
      rw [hcut]
      by_cases hd : (cfg.hasDictionary && !s.fallback) = true
      · rw [if_pos hd, checkDict_of_no_trigger env cfg s
          (by have := hdict hd; omega)]
      · rw [if_neg hd]
    rw [hmc]
  have h2 : writeBatch env cfg s 0 dl rl vs = (s, .ok ()) := by
    simp only [writeBatch, Nat.zero_div, Nat.zero_mod, Nat.zero_mul,
      List.drop_zero, writeBatchRounds]
    rw [h1]
  exact ⟨h1, h2⟩

/-- Witness for C9 (amended): a fresh flat-column writer with positive
page-size threshold; the zero batch leaves it untouched. -/
theorem c9_zero_batch_witness :
    ((initState (cfgFlat 5 100)).num_rows ≤ (cfgFlat 5 100).expected_rows) ∧
    ((initState (cfgFlat 5 100)).current_encoder.estimatedDataEncodedSize
        (cfgFlat 5 100).w < (cfgFlat 5 100).props.data_pagesize) ∧
    (writeMiniBatch env0 (cfgFlat 5 100) (initState (cfgFlat 5 100)) 0 [] [] [] =
      (initState (cfgFlat 5 100), .ok 0) ∧
    writeBatch env0 (cfgFlat 5 100) (initState (cfgFlat 5 100)) 0 [] [] [] =
      (initState (cfgFlat 5 100), .ok ())) :=
  ⟨by decide, by decide,
    c9_zero_batch env0 (cfgFlat 5 100) (initState (cfgFlat 5 100)) [] [] []
      (by decide) (by decide) (by decide)⟩

/-!
### C7 — writer-factory encoding selection

The claim states the factory selects the configured dictionary *index*
encoding.  `ColumnWriter::Make` reads `properties->dictionary_page_encoding()`
for the value encoding (the index-encoding property is used only for the
dictionary page header in `WriteDictionaryPage`), so the claim is corrected
to name the dictionary page encoding.
-/

/-- Properties whose dictionary page and index encodings differ, exposing
which one the factory reads. -/
def props7 : WriterProperties :=
  { encoding := fun _ => .PLAIN
    dictionary_enabled := fun _ => true
    dictionary_page_encoding := .PLAIN_DICTIONARY
    dictionary_index_encoding := .RLE_DICTIONARY
    dictionary_pagesize_limit := 100
    data_pagesize := 100
    write_batch_size := 1024 }

/-- Counterexample to C7 as stated: with dictionary enabled on a non-boolean
column and `dictionary_page_encoding ≠ dictionary_index_encoding`, the
factory selects the page encoding, not the index encoding. -/
theorem c7_counterexample :
    props7.dictionary_enabled flatInt32.path = true ∧
    flatInt32.physical_type ≠ .BOOLEAN ∧
    selectedEncoding props7 flatInt32 = .PLAIN_DICTIONARY ∧
    props7.dictionary_index_encoding = .RLE_DICTIONARY ∧
    selectedEncoding props7 flatInt32 ≠ props7.dictionary_index_encoding :=
  ⟨rfl, by decide, rfl, rfl, by decide⟩

/-- C7 as amended: the factory selects the configured dictionary *page*
encoding iff dictionary encoding is enabled for the column's path and the
physical type is not BOOLEAN, and otherwise the configured per-column
encoding; construction succeeds exactly on the supported encodings and
fails with the not-implemented rejection on the rest (every physical type
of the total enumeration constructs a writer). -/
theorem c7_writer_factory (props : WriterProperties) (descr : ColumnDescriptor)
    (er : Nat) :
    selectedEncoding props descr =
      (if props.dictionary_enabled descr.path && descr.physical_type != .BOOLEAN
        then props.dictionary_page_encoding else props.encoding descr.path) ∧
    (supportedEncoding (selectedEncoding props descr) = true →
      ColumnWriter_Make props descr er =
        .ok (initState { descr := descr, props := props, expected_rows := er
                         init_encoding := selectedEncoding props descr })) ∧
    (supportedEncoding (selectedEncoding props descr) = false →
      ColumnWriter_Make props descr er =
        .error "Selected encoding is not supported") := by
  refine ⟨rfl, ?_, ?_⟩ <;> intro h <;>
    simp [ColumnWriter_Make, mkTypedColumnWriter, h]

/-- Witness for C7 (amended) at the concrete properties with differing
dictionary encodings: selection is the page encoding and construction
succeeds. -/
theorem c7_writer_factory_witness :
    (supportedEncoding (selectedEncoding props7 flatInt32) = true) ∧
    ColumnWriter_Make props7 flatInt32 3 =
      .ok (initState { descr := flatInt32, props := props7, expected_rows := 3
                       init_encoding := selectedEncoding props7 flatInt32 }) :=
  ⟨rfl, (c7_writer_factory props7 flatInt32 3).2.1 rfl⟩

/-!
### C2 — row accounting

`num_rows` counts the zero repetition levels for a repeated column and the
total value count otherwise.
-/

/-- The number of rows one mini-batch contributes to `num_rows_`. -/
def rowDelta (cfg : Config) (b : Batch) : Nat :=
  if cfg.descr.max_repetition_level > 0 then
    (b.rep_levels.take b.num_values).countP (· = 0)
  else b.num_values

theorem writeMiniBatches_ok_num_rows (env : Env) (cfg : Config)
    (bs : List Batch) :
    ∀ s : WriterState, (writeMiniBatches env cfg s bs).2 = .ok () →
      (writeMiniBatches env cfg s bs).1.num_rows =
        s.num_rows + (bs.map (rowDelta cfg)).sum := by
  induction bs with
  | nil => intro s _; simp [writeMiniBatches]
  | cons b bs ih =>
    intro s h
    simp only [writeMiniBatches] at h ⊢
    rcases hw : writeMiniBatch env cfg s b.num_values b.def_levels b.rep_levels
        b.values with ⟨s1, r⟩
    rw [hw] at h
    cases r with
    | ok k =>
      replace h : (writeMiniBatches env cfg s1 bs).2 = Except.ok () := h
      have hs1 : s1.num_rows = s.num_rows + rowDelta cfg b := by
        have hn := writeMiniBatch_num_rows env cfg s b.num_values b.def_levels
          b.rep_levels b.values
        rw [hw] at hn
        simpa [rowDelta] using hn
      show (writeMiniBatches env cfg s1 bs).1.num_rows = _
      simp only [List.map_cons, List.sum_cons]
      rw [ih s1 h, hs1]
      omega
    | error e => exact absurd h (by simp)

/-- C2: over any successful sequence of mini-batches from a fresh writer
(each batch supplying as many repetition levels as values), `num_rows`
equals the count of zero repetition levels across all batches when the
column is repeated, and the total number of values written otherwise. -/
theorem c2_num_rows (env : Env) (cfg : Config) (bs : List Batch)
    (hwf : ∀ b ∈ bs, b.rep_levels.length = b.num_values)
    (h : (writeMiniBatches env cfg (initState cfg) bs).2 = .ok ()) :
    (writeMiniBatches env cfg (initState cfg) bs).1.num_rows =
      if cfg.descr.max_repetition_level > 0 then
        (bs.map fun b => b.rep_levels.countP (· = 0)).sum
      else (bs.map Batch.num_values).sum := by
  rw [writeMiniBatches_ok_num_rows env cfg bs _ h]
  have hinit : (initState cfg).num_rows = 0 := rfl
  rw [hinit, Nat.zero_add]
  by_cases hr : cfg.descr.max_repetition_level > 0
  · rw [if_pos hr]
    congr 1
    apply List.map_congr_left
    intro b hb
    simp only [rowDelta, if_pos hr]
    rw [← hwf b hb, List.take_length]
  · rw [if_neg hr]
    congr 1
    apply List.map_congr_left
    intro b hb
    simp [rowDelta, hr]

/-- Witness for C2: a repeated column receiving `[0,1,1,0,1,0]` counts
three rows. -/
theorem c2_num_rows_witness :
    ((∀ b ∈ [Batch.mk 6 [1, 1, 1, 1, 1, 1] [0, 1, 1, 0, 1, 0] [1, 2, 3, 4, 5, 6]],
        b.rep_levels.length = b.num_values) ∧
      (writeMiniBatches env0
        { descr := { physical_type := .INT32, path := 0
                     max_definition_level := 1, max_repetition_level := 1 }
          props := propsPlain 1000, expected_rows := 3
          init_encoding := .PLAIN }
        (initState
          { descr := { physical_type := .INT32, path := 0
                       max_definition_level := 1, max_repetition_level := 1 }
            props := propsPlain 1000, expected_rows := 3
            init_encoding := .PLAIN })
        [Batch.mk 6 [1, 1, 1, 1, 1, 1] [0, 1, 1, 0, 1, 0] [1, 2, 3, 4, 5, 6]]).2 =
        .ok ()) ∧
    (writeMiniBatches env0
        { descr := { physical_type := .INT32, path := 0
                     max_definition_level := 1, max_repetition_level := 1 }
          props := propsPlain 1000, expected_rows := 3
          init_encoding := .PLAIN }
        (initState
          { descr := { physical_type := .INT32, path := 0
                       max_definition_level := 1, max_repetition_level := 1 }
            props := propsPlain 1000, expected_rows := 3
            init_encoding := .PLAIN })
        [Batch.mk 6 [1, 1, 1, 1, 1, 1] [0, 1, 1, 0, 1, 0] [1, 2, 3, 4, 5, 6]]).1.num_rows =
      if (0 : Nat) <
          ({ physical_type := .INT32, path := 0, max_definition_level := 1
             max_repetition_level := 1 } : ColumnDescriptor).max_repetition_level then
        ([Batch.mk 6 [1, 1, 1, 1, 1, 1] [0, 1, 1, 0, 1, 0] [1, 2, 3, 4, 5, 6]].map
          fun b => b.rep_levels.countP (· = 0)).sum
      else
        ([Batch.mk 6 [1, 1, 1, 1, 1, 1] [0, 1, 1, 0, 1, 0] [1, 2, 3, 4, 5, 6]].map
          Batch.num_values).sum :=
  ⟨⟨by decide, by rfl⟩,
    c2_num_rows env0 _ _ (by decide) (by rfl)⟩

/-!
### C6 — page `num_values` accounting

Each page header's `num_values` is the count of buffered level entries, and
over a write-then-close execution the headers sum to the total level count.
-/

/-- The `num_values` contribution of one sink event (data pages only). -/
def eventValues : SinkEvent → Nat
  | .dataPage p => p.num_values
  | _ => 0

/-- Sum of the `num_values` header fields over the data pages of a sink
stream. -/
def dataValuesSum (l : List SinkEvent) : Nat :=
  (l.map eventValues).sum

/-- Level entries accounted for but not yet written to the sink: deferred
pages plus the buffered counter; adding the sink's data pages gives the
conserved total. -/
def pendingLevels (s : WriterState) : Nat :=
  dataValuesSum s.sink + (s.data_pages.map CompressedDataPage.num_values).sum +
    s.num_buffered_values

@[simp]
theorem eventValues_dataPage (p : CompressedDataPage) :
    eventValues (.dataPage p) = p.num_values := rfl

@[simp]
theorem eventValues_dictPage (p : DictionaryPage) :
    eventValues (.dictPage p) = 0 := rfl

@[simp]
theorem eventValues_closeSink (x y : Bool) :
    eventValues (.closeSink x y) = 0 := rfl

@[simp]
theorem dataValuesSum_nil : dataValuesSum [] = 0 := rfl

@[simp]
theorem dataValuesSum_cons (e : SinkEvent) (l : List SinkEvent) :
    dataValuesSum (e :: l) = eventValues e + dataValuesSum l := by
  simp [dataValuesSum]

@[simp]
theorem dataValuesSum_append (a b : List SinkEvent) :
    dataValuesSum (a ++ b) = dataValuesSum a + dataValuesSum b := by
  simp [dataValuesSum]

@[simp]
theorem dataValuesSum_map_dataPage (l : List CompressedDataPage) :
    dataValuesSum (l.map SinkEvent.dataPage) =
      (l.map CompressedDataPage.num_values).sum := by
  simp only [dataValuesSum, List.map_map]
  congr 1

@[simp]
theorem cutPage_num_values (env : Env) (cfg : Config) (s : WriterState) :
    (cutPage env cfg s).num_values = s.num_buffered_values := rfl

theorem pending_addDataPage (env : Env) (cfg : Config) (s : WriterState) :
    pendingLevels (addDataPage env cfg s) = pendingLevels s := by
  rw [addDataPage_eq]
  split <;> simp [pendingLevels] <;> omega

theorem pending_writeDictionaryPage (env : Env) (cfg : Config) (s : WriterState) :
    pendingLevels (writeDictionaryPage env cfg s) = pendingLevels s := by
  simp [writeDictionaryPage_eq, pendingLevels]

theorem pending_flush (env : Env) (cfg : Config) (s : WriterState) :
    pendingLevels (flushBufferedDataPages env cfg s) = pendingLevels s := by
  simp only [flushBufferedDataPages]
  by_cases h : 0 < s.num_buffered_values
  · rw [if_pos h, foldl_writeDataPageOp_eq, addDataPage_eq]
    split <;> simp [pendingLevels] <;> omega
  · rw [if_neg h, foldl_writeDataPageOp_eq]
    have h0 : s.num_buffered_values = 0 := Nat.eq_zero_of_not_pos h
    simp [pendingLevels, h0]

theorem pending_checkDict (env : Env) (cfg : Config) (s : WriterState) :
    pendingLevels (checkDictionarySizeLimit env cfg s) = pendingLevels s := by
  simp only [checkDictionarySizeLimit]
  split
  · have hr : pendingLevels
        { flushBufferedDataPages env cfg (writeDictionaryPage env cfg s) with
            fallback := true, current_encoder := .plain [], encoding := .PLAIN } =
        pendingLevels (flushBufferedDataPages env cfg
          (writeDictionaryPage env cfg s)) := rfl
    rw [hr, pending_flush, pending_writeDictionaryPage]
  · rfl

theorem pending_afterLevels (cfg : Config) (s : WriterState) (nv : Nat)
    (dl rl : List Nat) :
    pendingLevels (afterLevels cfg s nv dl rl) = pendingLevels s := by
  simp [pendingLevels]

theorem pending_afterValues (cfg : Config) (t : WriterState) (nv : Nat)
    (dl vs : List Nat) :
    pendingLevels (afterValues cfg t nv dl vs) = pendingLevels t + nv := by
  simp [pendingLevels, afterValues]
  omega

theorem pending_maybeCutAndCheck (env : Env) (cfg : Config) (t : WriterState) :
    pendingLevels (maybeCutAndCheck env cfg t) = pendingLevels t := by
  simp only [maybeCutAndCheck]
  have key : ∀ u : WriterState,
      pendingLevels (if (cfg.hasDictionary && !u.fallback) = true then
        checkDictionarySizeLimit env cfg u else u) = pendingLevels u := by
    intro u
    split
    · exact pending_checkDict env cfg u
    · rfl
  split
  · rw [key, pending_addDataPage]
  · rw [key]

theorem pending_writeMiniBatch_ok (env : Env) (cfg : Config) (s : WriterState)
    (nv : Nat) (dl rl vs : List Nat) (s1 : WriterState) (k : Nat)
    (h : writeMiniBatch env cfg s nv dl rl vs = (s1, .ok k)) :
    pendingLevels s1 = pendingLevels s + nv := by
  rw [writeMiniBatch_eq] at h
  by_cases ho : (afterLevels cfg s nv dl rl).num_rows > cfg.expected_rows
  · rw [if_pos ho] at h
    simp at h
  · rw [if_neg ho] at h
    injection h with h1 h2
    rw [← h1, pending_maybeCutAndCheck, pending_afterValues, pending_afterLevels]

theorem writeMiniBatches_ok_pending (env : Env) (cfg : Config) (bs : List Batch) :
    ∀ s : WriterState, (writeMiniBatches env cfg s bs).2 = .ok () →
      pendingLevels (writeMiniBatches env cfg s bs).1 =
        pendingLevels s + (bs.map Batch.num_values).sum := by
  induction bs with
  | nil => intro s _; simp [writeMiniBatches]
  | cons b bs ih =>
    intro s h
    simp only [writeMiniBatches] at h ⊢
    rcases hw : writeMiniBatch env cfg s b.num_values b.def_levels b.rep_levels
        b.values with ⟨s1, r⟩
    rw [hw] at h
    cases r with
    | ok k =>
      replace h : (writeMiniBatches env cfg s1 bs).2 = Except.ok () := h
      have hs1 : pendingLevels s1 = pendingLevels s + b.num_values :=
        pending_writeMiniBatch_ok env cfg s b.num_values b.def_levels
          b.rep_levels b.values s1 k hw
      show pendingLevels (writeMiniBatches env cfg s1 bs).1 = _
      simp only [List.map_cons, List.sum_cons]
      rw [ih s1 h, hs1]
      omega
    | error e => exact absurd h (by simp)

theorem writeMiniBatches_closed (env : Env) (cfg : Config) (bs : List Batch) :
    ∀ s : WriterState,
      (writeMiniBatches env cfg s bs).1.closed = s.closed := by
  induction bs with
  | nil => intro s; rfl
  | cons b bs ih =>
    intro s
    simp only [writeMiniBatches]
    rcases hw : writeMiniBatch env cfg s b.num_values b.def_levels b.rep_levels
        b.values with ⟨s1, r⟩
    have hc : s1.closed = s.closed := by
      have := writeMiniBatch_closed env cfg s b.num_values b.def_levels
        b.rep_levels b.values
      rw [hw] at this
      exact this
    cases r with
    | ok k =>
      show (writeMiniBatches env cfg s1 bs).1.closed = s.closed
      rw [ih s1, hc]
    | error e => exact hc

theorem pending_closeFlushed (env : Env) (cfg : Config) (s : WriterState) :
    pendingLevels (closeFlushed env cfg s) = pendingLevels s := by
  simp only [closeFlushed]
  split
  · have h1 : ∀ (t : WriterState) (x y : Bool),
        pendingLevels { t with sink := t.sink ++ [SinkEvent.closeSink x y] } =
          pendingLevels t := by
      intro t x y
      simp [pendingLevels]
    rw [h1, pending_flush]
    split
    · rw [pending_writeDictionaryPage]
      exact rfl
    · exact rfl
  · rfl

theorem closeFlushed_data_pages (env : Env) (cfg : Config) (s : WriterState)
    (h : s.closed = false) : (closeFlushed env cfg s).data_pages = [] := by
  simp only [closeFlushed, h, Bool.not_false, if_true]
  split <;> simp

theorem closeFlushed_num_buffered (env : Env) (cfg : Config) (s : WriterState)
    (h : s.closed = false) : (closeFlushed env cfg s).num_buffered_values = 0 := by
  simp only [closeFlushed, h, Bool.not_false, if_true]
  split <;> simp

theorem closeW_fst (env : Env) (cfg : Config) (s : WriterState) :
    (closeW env cfg s).1 = closeFlushed env cfg s := by
  simp only [closeW]
  split <;> rfl

/-- C6: every cut page's `num_values` header is `num_buffered_values_` (the
count of buffered level entries, not the non-null count), and over a full
write-then-close execution the `num_values` headers of the data pages that
reached the sink sum to the total level count written. -/
theorem c6_page_num_values (env : Env) (cfg : Config) (bs : List Batch)
    (h : (writeMiniBatches env cfg (initState cfg) bs).2 = .ok ()) :
    (∀ t : WriterState, (cutPage env cfg t).num_values = t.num_buffered_values) ∧
    dataValuesSum
        (closeW env cfg (writeMiniBatches env cfg (initState cfg) bs).1).1.sink =
      (bs.map Batch.num_values).sum := by
  refine ⟨fun t => rfl, ?_⟩
  have hW := writeMiniBatches_ok_pending env cfg bs (initState cfg) h
  have hinit : pendingLevels (initState cfg) = 0 := rfl
  rw [hinit, Nat.zero_add] at hW
  rw [closeW_fst]
  have hclosed : (writeMiniBatches env cfg (initState cfg) bs).1.closed = false :=
    writeMiniBatches_closed env cfg bs (initState cfg)
  have hpc := pending_closeFlushed env cfg
    (writeMiniBatches env cfg (initState cfg) bs).1
  have hdp := closeFlushed_data_pages env cfg
    (writeMiniBatches env cfg (initState cfg) bs).1 hclosed
  have hnb := closeFlushed_num_buffered env cfg
    (writeMiniBatches env cfg (initState cfg) bs).1 hclosed
  rw [hW] at hpc
  unfold pendingLevels at hpc
  rw [hdp, hnb] at hpc
  simpa using hpc

/-- Witness for C6: a flat column, two batches of sizes 2 and 1 with a
page-size threshold that forces a cut, closed successfully; the emitted
headers sum to 3. -/
theorem c6_page_num_values_witness :
    ((writeMiniBatches env0 (cfgFlat 3 4) (initState (cfgFlat 3 4))
        [Batch.mk 2 [] [] [7, 8], Batch.mk 1 [] [] [9]]).2 = .ok ()) ∧
    ((∀ t : WriterState,
        (cutPage env0 (cfgFlat 3 4) t).num_values = t.num_buffered_values) ∧
      dataValuesSum
          (closeW env0 (cfgFlat 3 4)
            (writeMiniBatches env0 (cfgFlat 3 4) (initState (cfgFlat 3 4))
              [Batch.mk 2 [] [] [7, 8], Batch.mk 1 [] [] [9]]).1).1.sink =
        ([Batch.mk 2 [] [] [7, 8], Batch.mk 1 [] [] [9]].map
          Batch.num_values).sum) :=
  ⟨rfl, c6_page_num_values env0 (cfgFlat 3 4)
    [Batch.mk 2 [] [] [7, 8], Batch.mk 1 [] [] [9]] rfl⟩

/-!
### C4 — the dictionary page is unique and first

A writer constructed with dictionary encoding hands exactly one dictionary
page to the sink, before every data page; a writer without dictionary
encoding hands none.
-/

/-- Data-page discriminator on sink events. -/
def isDataEvent : SinkEvent → Bool
  | .dataPage _ => true
  | _ => false

/-- Dictionary-page discriminator on sink events. -/
def isDictEvent : SinkEvent → Bool
  | .dictPage _ => true
  | _ => false

/-- Number of dictionary pages in a sink stream. -/
def dictCount (l : List SinkEvent) : Nat :=
  l.countP isDictEvent

/-- Checks that no dictionary page occurs after any data page in the
stream. -/
def noDictAfterData : List SinkEvent → Bool
  | [] => true
  | e :: rest =>
    if isDataEvent e then rest.all (fun x => !isDictEvent x)
    else noDictAfterData rest

@[simp]
theorem dictCount_nil : dictCount [] = 0 := rfl

@[simp]
theorem dictCount_append (a b : List SinkEvent) :
    dictCount (a ++ b) = dictCount a + dictCount b :=
  List.countP_append _ _ _

@[simp]
theorem dictCount_map_dataPage (l : List CompressedDataPage) :
    dictCount (l.map SinkEvent.dataPage) = 0 := by
  induction l with
  | nil => rfl
  | cons p t ih => simp [dictCount, List.countP_cons, isDictEvent]

@[simp]
theorem dictCount_dataPage_cons (p : CompressedDataPage) (l : List SinkEvent) :
    dictCount (.dataPage p :: l) = dictCount l := by
  simp [dictCount, List.countP_cons, isDictEvent]

@[simp]
theorem dictCount_dictPage_cons (p : DictionaryPage) (l : List SinkEvent) :
    dictCount (.dictPage p :: l) = dictCount l + 1 := by
  simp [dictCount, List.countP_cons, isDictEvent]

@[simp]
theorem dictCount_closeSink_cons (x y : Bool) (l : List SinkEvent) :
    dictCount (.closeSink x y :: l) = dictCount l := by
  simp [dictCount, List.countP_cons, isDictEvent]

@[simp]
theorem all_not_dict_map_dataPage (l : List CompressedDataPage) :
    (l.map SinkEvent.dataPage).all (fun x => !isDictEvent x) = true := by
  induction l with
  | nil => rfl
  | cons p t ih => simp [isDictEvent]

theorem noDictAfterData_of_no_dict (l : List SinkEvent)
    (h : l.all (fun x => !isDictEvent x) = true) : noDictAfterData l = true := by
  induction l with
  | nil => rfl
  | cons e rest ih =>
    simp only [List.all_cons, Bool.and_eq_true] at h
    simp only [noDictAfterData]
    split
    · exact h.2
    · exact ih h.2

theorem noDictAfterData_append (l tail : List SinkEvent)
    (hl : noDictAfterData l = true)
    (ht : tail.all (fun x => !isDictEvent x) = true) :
    noDictAfterData (l ++ tail) = true := by
  induction l with
  | nil => simpa using noDictAfterData_of_no_dict tail ht
  | cons e rest ih =>
    simp only [List.cons_append, noDictAfterData] at hl ⊢
    by_cases hd : isDataEvent e = true
    · rw [if_pos hd] at hl ⊢
      simp [List.append_eq, List.all_append, hl, ht]
    · rw [if_neg hd] at hl ⊢
      exact ih hl

/-- The sink-stream invariant maintained while writing: the dictionary page
count tracks whether the (dictionary-mode) writer has emitted its page, no
dictionary page ever follows a data page, and while dictionary encoding is
active without fallback nothing has reached the sink at all. -/
def SinkInv (cfg : Config) (s : WriterState) : Prop :=
  dictCount s.sink =
    (if cfg.hasDictionary && (s.fallback || s.closed) then 1 else 0) ∧
  noDictAfterData s.sink = true ∧
  (cfg.hasDictionary = true → s.fallback = false → s.closed = false →
    s.sink = [])

theorem sinkInv_addDataPage (env : Env) (cfg : Config) (s : WriterState)
    (h : SinkInv cfg s) : SinkInv cfg (addDataPage env cfg s) := by
  obtain ⟨h1, h2, h3⟩ := h
  rw [addDataPage_eq]
  by_cases hd : (cfg.hasDictionary && !s.fallback) = true
  · rw [if_pos hd]
    exact ⟨h1, h2, h3⟩
  · rw [if_neg hd]
    refine ⟨?_, ?_, ?_⟩
    · simpa using h1
    · exact noDictAfterData_append _ _ h2 (by simp [isDictEvent])
    · intro hcd hf _
      have hf2 : s.fallback = false := hf
      exact absurd (by simp [hcd, hf2] : (cfg.hasDictionary && !s.fallback) = true) hd

theorem sinkInv_checkDict (env : Env) (cfg : Config) (s : WriterState)
    (hcd : cfg.hasDictionary = true) (hf : s.fallback = false)
    (hc : s.closed = false) (h : SinkInv cfg s) :
    SinkInv cfg (checkDictionarySizeLimit env cfg s) ∧
      (checkDictionarySizeLimit env cfg s).closed = false := by
  obtain ⟨h1, h2, h3⟩ := h
  have hsink : s.sink = [] := h3 hcd hf hc
  simp only [checkDictionarySizeLimit]
  split
  · have hK : (flushBufferedDataPages env cfg (writeDictionaryPage env cfg s)).sink =
        (s.sink ++ [SinkEvent.dictPage (dictPageOf cfg s.current_encoder)]) ++
          (flushedPages env cfg (writeDictionaryPage env cfg s)).map
            SinkEvent.dataPage := by
      rw [flush_sink, writeDictionaryPage_eq]
    refine ⟨⟨?_, ?_, ?_⟩, ?_⟩
    · show dictCount (flushBufferedDataPages env cfg
        (writeDictionaryPage env cfg s)).sink = _
      rw [hK, hsink]
      simp [hcd]
    · show noDictAfterData (flushBufferedDataPages env cfg
        (writeDictionaryPage env cfg s)).sink = true
      rw [hK, hsink]
      simp only [List.nil_append, List.cons_append]
      show noDictAfterData (.dictPage _ ::
        (flushedPages env cfg (writeDictionaryPage env cfg s)).map
          SinkEvent.dataPage) = true
      simp only [noDictAfterData, isDataEvent]
      exact noDictAfterData_of_no_dict _ (all_not_dict_map_dataPage _)
    · intro _ hff
      simp at hff
    · show (flushBufferedDataPages env cfg
        (writeDictionaryPage env cfg s)).closed = false
      rw [flush_closed, writeDictionaryPage_eq]
      exact hc
  · exact ⟨⟨h1, h2, h3⟩, hc⟩

theorem sinkInv_maybeCutAndCheck (env : Env) (cfg : Config) (t : WriterState)
    (hc : t.closed = false) (h : SinkInv cfg t) :
    SinkInv cfg (maybeCutAndCheck env cfg t) ∧
      (maybeCutAndCheck env cfg t).closed = false := by
  simp only [maybeCutAndCheck]
  have key : ∀ u : WriterState, u.closed = false → SinkInv cfg u →
      SinkInv cfg (if (cfg.hasDictionary && !u.fallback) = true then
        checkDictionarySizeLimit env cfg u else u) ∧
      (if (cfg.hasDictionary && !u.fallback) = true then
        checkDictionarySizeLimit env cfg u else u).closed = false := by
    intro u huc hu
    split
    · next hcond =>
      rw [Bool.and_eq_true] at hcond
      exact sinkInv_checkDict env cfg u hcond.1 (by simpa using hcond.2) huc hu
    · exact ⟨hu, huc⟩
  split
  · exact key _ (by simp [hc]) (sinkInv_addDataPage env cfg t h)
  · exact key t hc h

theorem sinkInv_writeMiniBatch (env : Env) (cfg : Config) (s : WriterState)
    (nv : Nat) (dl rl vs : List Nat) (hc : s.closed = false) (h : SinkInv cfg s) :
    SinkInv cfg (writeMiniBatch env cfg s nv dl rl vs).1 ∧
      (writeMiniBatch env cfg s nv dl rl vs).1.closed = false := by
  rw [writeMiniBatch_eq]
  obtain ⟨h1, h2, h3⟩ := h
  split
  · refine ⟨⟨?_, ?_, ?_⟩, ?_⟩
    · simpa using h1
    · simpa using h2
    · simp only [afterLevels_sink, afterLevels_fallback, afterLevels_closed]
      exact h3
    · simpa using hc
  · have ht : SinkInv cfg (afterValues cfg (afterLevels cfg s nv dl rl) nv dl vs) := by
      refine ⟨?_, ?_, ?_⟩
      · simpa using h1
      · simpa using h2
      · simp only [afterValues_sink, afterValues_fallback, afterValues_closed,
          afterLevels_sink, afterLevels_fallback, afterLevels_closed]
        exact h3
    exact sinkInv_maybeCutAndCheck env cfg _ (by simpa using hc) ht

theorem sinkInv_writeMiniBatches (env : Env) (cfg : Config) (bs : List Batch) :
    ∀ s : WriterState, s.closed = false → SinkInv cfg s →
      SinkInv cfg (writeMiniBatches env cfg s bs).1 ∧
        (writeMiniBatches env cfg s bs).1.closed = false := by
  induction bs with
  | nil => intro s hc h; exact ⟨h, hc⟩
  | cons b bs ih =>
    intro s hc h
    simp only [writeMiniBatches]
    rcases hw : writeMiniBatch env cfg s b.num_values b.def_levels b.rep_levels
        b.values with ⟨s1, r⟩
    have hstep := sinkInv_writeMiniBatch env cfg s b.num_values b.def_levels
      b.rep_levels b.values hc h
    rw [hw] at hstep
    cases r with
    | ok k =>
      show SinkInv cfg (writeMiniBatches env cfg s1 bs).1 ∧ _
      exact ih s1 hstep.2 hstep.1
    | error e => exact hstep

theorem sinkInv_closeFlushed (env : Env) (cfg : Config) (s : WriterState)
    (hc : s.closed = false) (h : SinkInv cfg s) :
    dictCount (closeFlushed env cfg s).sink = (if cfg.hasDictionary then 1 else 0) ∧
    noDictAfterData (closeFlushed env cfg s).sink = true := by
  obtain ⟨h1, h2, h3⟩ := h
  simp only [closeFlushed, hc, Bool.not_false, if_true]
  by_cases hd : (cfg.hasDictionary && !s.fallback) = true
  · have hd2 := hd
    rw [Bool.and_eq_true] at hd2
    obtain ⟨hcd, hnf⟩ := hd2
    have hf : s.fallback = false := by simpa using hnf
    have hsink : s.sink = [] := h3 hcd hf hc
    rw [if_pos (by simpa using hd)]
    have hK : (flushBufferedDataPages env cfg (writeDictionaryPage env cfg
        { s with closed := true })).sink =
        (s.sink ++ [SinkEvent.dictPage (dictPageOf cfg s.current_encoder)]) ++
          (flushedPages env cfg (writeDictionaryPage env cfg
            { s with closed := true })).map SinkEvent.dataPage := by
      rw [flush_sink, writeDictionaryPage_eq]
    constructor
    · show dictCount ((flushBufferedDataPages env cfg _).sink ++
        [SinkEvent.closeSink _ _]) = _
      rw [hK, hsink]
      simp [hcd]
    · show noDictAfterData ((flushBufferedDataPages env cfg _).sink ++
        [SinkEvent.closeSink _ _]) = true
      rw [hK, hsink]
      apply noDictAfterData_append
      · simp only [List.nil_append, List.cons_append]
        show noDictAfterData (.dictPage _ :: _) = true
        simp only [noDictAfterData, isDataEvent]
        exact noDictAfterData_of_no_dict _ (all_not_dict_map_dataPage _)
      · simp [isDictEvent]
  · rw [if_neg (by simpa using hd)]
    have hK : (flushBufferedDataPages env cfg
        ({ s with closed := true } : WriterState)).sink =
        s.sink ++ (flushedPages env cfg
          ({ s with closed := true } : WriterState)).map SinkEvent.dataPage := by
      rw [flush_sink]
    constructor
    · show dictCount ((flushBufferedDataPages env cfg _).sink ++
        [SinkEvent.closeSink _ _]) = _
      rw [hK]
      have hcount : dictCount s.sink = (if cfg.hasDictionary then 1 else 0) := by
        cases hcd : cfg.hasDictionary with
        | false => simpa [hcd] using h1
        | true =>
          have hf : s.fallback = true := by
            cases hfb : s.fallback with
            | false => exact absurd (by simp [hcd, hfb]) hd
            | true => rfl
          simpa [hcd, hf] using h1
      simp [hcount]
    · show noDictAfterData ((flushBufferedDataPages env cfg _).sink ++
        [SinkEvent.closeSink _ _]) = true
      rw [hK, List.append_assoc]
      apply noDictAfterData_append _ _ h2
      rw [List.all_append]
      simp [isDictEvent]

/-- C4: over any execution (a sequence of mini-batches followed by close),
the sink receives exactly one dictionary page when the writer was
constructed with dictionary encoding — whether or not fallback occurred —
and none otherwise; and no dictionary page ever follows a data page in the
sink stream. -/
theorem c4_dictionary_page (env : Env) (cfg : Config) (bs : List Batch) :
    dictCount
        (closeW env cfg (writeMiniBatches env cfg (initState cfg) bs).1).1.sink =
      (if cfg.hasDictionary then 1 else 0) ∧
    noDictAfterData
        (closeW env cfg (writeMiniBatches env cfg (initState cfg) bs).1).1.sink =
      true := by
  have hinit : SinkInv cfg (initState cfg) :=
    ⟨by simp [initState], rfl, fun _ _ _ => rfl⟩
  obtain ⟨hW, hWc⟩ := sinkInv_writeMiniBatches env cfg bs (initState cfg) rfl hinit
  rw [closeW_fst]
  exact sinkInv_closeFlushed env cfg _ hWc hW

/-!
### C5 — order of events at dictionary fallback

The claim states the buffered data pages are flushed first and the
dictionary page written after them.  `CheckDictionarySizeLimit` does the
opposite: `WriteDictionaryPage()` runs before `FlushBufferedDataPages()`,
so the dictionary page reaches the sink before the deferred pages.  The
claim is corrected to that order; the fallback flag, the fresh plain
encoder and the PLAIN tag for subsequent pages are as claimed.
-/

@[simp]
theorem afterLevels_encoding (cfg : Config) (s : WriterState) (nv : Nat)
    (dl rl : List Nat) : (afterLevels cfg s nv dl rl).encoding = s.encoding := by
  simp only [afterLevels]
  by_cases hd : cfg.descr.max_definition_level > 0 <;>
    by_cases hr : cfg.descr.max_repetition_level > 0 <;> simp [hd, hr]

@[simp]
theorem afterValues_encoding (cfg : Config) (t : WriterState) (nv : Nat)
    (dl vs : List Nat) : (afterValues cfg t nv dl vs).encoding = t.encoding := rfl

@[simp]
theorem cutPage_encoding (env : Env) (cfg : Config) (s : WriterState) :
    (cutPage env cfg s).encoding = s.encoding := rfl

/-- Checks that every data page in the stream carries the PLAIN value
encoding tag. -/
def dataPagesPlain (l : List SinkEvent) : Bool :=
  l.all fun e =>
    match e with
    | .dataPage p => p.encoding == .PLAIN
    | _ => true

theorem dataPagesPlain_append (a b : List SinkEvent) :
    dataPagesPlain (a ++ b) = (dataPagesPlain a && dataPagesPlain b) :=
  List.all_append

theorem maybeCut_plain (env : Env) (cfg : Config) (u : WriterState)
    (hf : u.fallback = true) (he : u.encoding = .PLAIN) :
    (maybeCutAndCheck env cfg u).fallback = true ∧
    (maybeCutAndCheck env cfg u).encoding = .PLAIN ∧
    ∃ tail, (maybeCutAndCheck env cfg u).sink = u.sink ++ tail ∧
      dataPagesPlain tail = true := by
  simp only [maybeCutAndCheck]
  by_cases hcut : u.current_encoder.estimatedDataEncodedSize cfg.w ≥
    cfg.props.data_pagesize
  · rw [if_pos hcut]
    have hfb : (addDataPage env cfg u).fallback = true := by simp [hf]
    rw [if_neg (by simp [hf])]
    have hsink : (addDataPage env cfg u).sink =
        u.sink ++ [SinkEvent.dataPage (cutPage env cfg u)] := by
      rw [addDataPage_eq, if_neg (by simp [hf])]
    refine ⟨hfb, by simp [he], [SinkEvent.dataPage (cutPage env cfg u)],
      hsink, ?_⟩
    simp [dataPagesPlain, he]
  · rw [if_neg hcut]
    rw [if_neg (by simp [hf])]
    exact ⟨hf, he, [], by simp, rfl⟩

theorem step_plain (env : Env) (cfg : Config) (t : WriterState) (nv : Nat)
    (dl rl vs : List Nat) (hf : t.fallback = true) (he : t.encoding = .PLAIN) :
    (writeMiniBatch env cfg t nv dl rl vs).1.fallback = true ∧
    (writeMiniBatch env cfg t nv dl rl vs).1.encoding = .PLAIN ∧
    ∃ tail, (writeMiniBatch env cfg t nv dl rl vs).1.sink = t.sink ++ tail ∧
      dataPagesPlain tail = true := by
  rw [writeMiniBatch_eq]
  split
  · exact ⟨by simpa using hf, by simp [he], [], by simp, rfl⟩
  · obtain ⟨hm1, hm2, tail, hm3, hm4⟩ := maybeCut_plain env cfg
      (afterValues cfg (afterLevels cfg t nv dl rl) nv dl vs)
      (by simpa using hf) (by simp [he])
    refine ⟨hm1, hm2, tail, ?_, hm4⟩
    rw [hm3]
    simp

theorem writeMiniBatches_plain (env : Env) (cfg : Config) (bs : List Batch) :
    ∀ t : WriterState, t.fallback = true → t.encoding = .PLAIN →
      (writeMiniBatches env cfg t bs).1.fallback = true ∧
      (writeMiniBatches env cfg t bs).1.encoding = .PLAIN ∧
      ∃ tail, (writeMiniBatches env cfg t bs).1.sink = t.sink ++ tail ∧
        dataPagesPlain tail = true := by
  induction bs with
  | nil => intro t hf he; exact ⟨hf, he, [], by simp [writeMiniBatches], rfl⟩
  | cons b bs ih =>
    intro t hf he
    simp only [writeMiniBatches]
    rcases hw : writeMiniBatch env cfg t b.num_values b.def_levels b.rep_levels
        b.values with ⟨s1, r⟩
    have hstep := step_plain env cfg t b.num_values b.def_levels b.rep_levels
      b.values hf he
    rw [hw] at hstep
    obtain ⟨hf1, he1, tail1, hs1, hp1⟩ := hstep
    cases r with
    | ok k =>
      obtain ⟨hf2, he2, tail2, hs2, hp2⟩ := ih s1 hf1 he1
      refine ⟨hf2, he2, tail1 ++ tail2, ?_, ?_⟩
      · show (writeMiniBatches env cfg s1 bs).1.sink = _
        rw [hs2, hs1, List.append_assoc]
      · rw [dataPagesPlain_append, hp1, hp2]
        rfl
    | error e => exact ⟨hf1, he1, tail1, hs1, hp1⟩

/-- Counterexample to C5 as stated: a dictionary INT32 writer with
`data_pagesize = 1` and `dictionary_pagesize_limit = 5`.  The first batch
defers one data page (sink still empty); the second triggers the fallback,
and the sink then holds the dictionary page FIRST, followed by the two
previously buffered data pages — not the buffered pages first. -/
theorem c5_counterexample :
    (writeMiniBatches env0
        { descr := flatInt32, props := propsDict 1 5, expected_rows := 10
          init_encoding := .PLAIN_DICTIONARY }
        (initState
          { descr := flatInt32, props := propsDict 1 5, expected_rows := 10
            init_encoding := .PLAIN_DICTIONARY })
        [Batch.mk 1 [] [] [10]]).1.data_pages.length = 1 ∧
    (writeMiniBatches env0
        { descr := flatInt32, props := propsDict 1 5, expected_rows := 10
          init_encoding := .PLAIN_DICTIONARY }
        (initState
          { descr := flatInt32, props := propsDict 1 5, expected_rows := 10
            init_encoding := .PLAIN_DICTIONARY })
        [Batch.mk 1 [] [] [10]]).1.sink = [] ∧
    ((writeMiniBatches env0
        { descr := flatInt32, props := propsDict 1 5, expected_rows := 10
          init_encoding := .PLAIN_DICTIONARY }
        (initState
          { descr := flatInt32, props := propsDict 1 5, expected_rows := 10
            init_encoding := .PLAIN_DICTIONARY })
        [Batch.mk 1 [] [] [10], Batch.mk 1 [] [] [20]]).1.sink.map isDictEvent) =
      [true, false, false] ∧
    ((writeMiniBatches env0
        { descr := flatInt32, props := propsDict 1 5, expected_rows := 10
          init_encoding := .PLAIN_DICTIONARY }
        (initState
          { descr := flatInt32, props := propsDict 1 5, expected_rows := 10
            init_encoding := .PLAIN_DICTIONARY })
        [Batch.mk 1 [] [] [10], Batch.mk 1 [] [] [20]]).1.sink.map isDataEvent) =
      [false, true, true] ∧
    (writeMiniBatches env0
        { descr := flatInt32, props := propsDict 1 5, expected_rows := 10
          init_encoding := .PLAIN_DICTIONARY }
        (initState
          { descr := flatInt32, props := propsDict 1 5, expected_rows := 10
            init_encoding := .PLAIN_DICTIONARY })
        [Batch.mk 1 [] [] [10], Batch.mk 1 [] [] [20]]).1.fallback = true := by
  exact ⟨rfl, rfl, rfl, rfl, rfl⟩

/-- C5 as amended: when the dictionary size limit triggers the fallback,
the dictionary page is written to the sink FIRST, then the buffered
(deferred) data pages are flushed in FIFO order; the fallback flag is set,
the encoder is replaced by a fresh plain encoder under the PLAIN tag, and
every data page any further mini-batches put in the sink carries the PLAIN
encoding. -/
theorem c5_fallback_order (env : Env) (cfg : Config) (s : WriterState)
    (_hd : cfg.hasDictionary = true) (_hf : s.fallback = false)
    (htrig : s.current_encoder.dictEncodedSize cfg.w ≥
      cfg.props.dictionary_pagesize_limit) :
    (checkDictionarySizeLimit env cfg s).sink =
      s.sink ++ SinkEvent.dictPage (dictPageOf cfg s.current_encoder) ::
        (flushedPages env cfg (writeDictionaryPage env cfg s)).map
          SinkEvent.dataPage ∧
    (checkDictionarySizeLimit env cfg s).fallback = true ∧
    (checkDictionarySizeLimit env cfg s).encoding = .PLAIN ∧
    (checkDictionarySizeLimit env cfg s).current_encoder = .plain [] ∧
    (∀ bs : List Batch,
      dataPagesPlain
        ((writeMiniBatches env cfg (checkDictionarySizeLimit env cfg s) bs).1.sink.drop
          (checkDictionarySizeLimit env cfg s).sink.length) = true) := by
  have hK := checkDict_of_trigger env cfg s htrig
  refine ⟨?_, ?_, ?_, ?_, ?_⟩
  · rw [hK]
    show (flushBufferedDataPages env cfg (writeDictionaryPage env cfg s)).sink = _
    rw [flush_sink, writeDictionaryPage_eq]
    simp [List.append_assoc]
  · rw [hK]
  · rw [hK]
  · rw [hK]
  · intro bs
    obtain ⟨-, -, tail, hs, hp⟩ := writeMiniBatches_plain env cfg bs
      (checkDictionarySizeLimit env cfg s) (by rw [hK]) (by rw [hK])
    rw [hs, List.drop_left]
    exact hp

/-- Witness for C5 (amended): a dictionary writer state with two distinct
dictionary entries, one deferred page and a limit of 5 bytes. -/
theorem c5_fallback_order_witness :
    (({ descr := flatInt32, props := propsDict 1 5, expected_rows := 10
        init_encoding := .PLAIN_DICTIONARY } : Config).hasDictionary = true) ∧
    (({ (writeMiniBatches env0
          { descr := flatInt32, props := propsDict 1 5, expected_rows := 10
            init_encoding := .PLAIN_DICTIONARY }
          (initState
            { descr := flatInt32, props := propsDict 1 5, expected_rows := 10
              init_encoding := .PLAIN_DICTIONARY })
          [Batch.mk 1 [] [] [10]]).1 with
        current_encoder := .dict [10, 20] [] } : WriterState).fallback = false) ∧
    ((Enc.dict [10, 20] []).dictEncodedSize
        ({ descr := flatInt32, props := propsDict 1 5, expected_rows := 10
           init_encoding := .PLAIN_DICTIONARY } : Config).w ≥
      (propsDict 1 5).dictionary_pagesize_limit) ∧
    ((checkDictionarySizeLimit env0
        { descr := flatInt32, props := propsDict 1 5, expected_rows := 10
          init_encoding := .PLAIN_DICTIONARY }
        { (writeMiniBatches env0
            { descr := flatInt32, props := propsDict 1 5, expected_rows := 10
              init_encoding := .PLAIN_DICTIONARY }
            (initState
              { descr := flatInt32, props := propsDict 1 5, expected_rows := 10
                init_encoding := .PLAIN_DICTIONARY })
            [Batch.mk 1 [] [] [10]]).1 with
          current_encoder := .dict [10, 20] [] }).fallback = true) := by
  refine ⟨rfl, rfl, by decide, ?_⟩
  exact (c5_fallback_order env0
    { descr := flatInt32, props := propsDict 1 5, expected_rows := 10
      init_encoding := .PLAIN_DICTIONARY }
    { (writeMiniBatches env0
        { descr := flatInt32, props := propsDict 1 5, expected_rows := 10
          init_encoding := .PLAIN_DICTIONARY }
        (initState
          { descr := flatInt32, props := propsDict 1 5, expected_rows := 10
            init_encoding := .PLAIN_DICTIONARY })
        [Batch.mk 1 [] [] [10]]).1 with
      current_encoder := .dict [10, 20] [] }
    rfl rfl (by decide)).2.1

end PQ
